import Mathlib

/-!
# xmlquery: the node serializer, the colour policy and option validation

A shallow embedding of `main.go`.

* The document tree of `github.com/antchfx/xmlquery` is a pointer structure
  (`FirstChild`, `NextSibling`); the serializer only ever walks it with
  `for n := node.FirstChild; n != nil; n = n.NextSibling`, so a node carries the list
  `children` of the nodes met by that walk, in that order.
* The output sink (`stringWriter`) is an arbitrary state machine: a write maps the
  sink state to a new state and possibly an error.  Functions that write take the sink
  state and return the new state together with Go's `error` result (`none` is `nil`).
* Go strings produced by the XML decoder are valid UTF-8; they are Lean strings.
-/

namespace XmlQuery

/-! ## Library types used by `main.go` -/

/-- The node kinds of `xmlquery.NodeType`. -/
inductive NodeType where
  | DocumentNode
  | DeclarationNode
  | ElementNode
  | TextNode
  | CharDataNode
  | CommentNode
  | AttributeNode
  | NotationNode
  deriving DecidableEq, Repr

/-- The type `xml.Name`: for the attributes of an `xmlquery.Node`, `Space` holds the
namespace prefix. -/
structure Name where
  Space : String
  Local : String
  deriving DecidableEq, Repr

/-- The type `xmlquery.Attr`, with the fields the serializer reads. -/
structure Attr where
  Name : Name
  Value : String
  deriving DecidableEq, Repr

/-- The type `xmlquery.Node`, with the fields the serializer reads: `Typ` is the field
`Type`, and `children` is the chain `FirstChild, FirstChild.NextSibling, ...`. -/
inductive Node where
  | mk (Typ : NodeType) (Data : String) (Prefix : String) (Attr : List Attr)
      (children : List Node)

/-- Field `Type` of a node. -/
def Node.Typ : Node → NodeType
  | .mk t _ _ _ _ => t

/-- Field `Data` of a node. -/
def Node.Data : Node → String
  | .mk _ d _ _ _ => d

/-- Field `Prefix` of a node. -/
def Node.Prefix : Node → String
  | .mk _ _ p _ _ => p

/-- Field `Attr` of a node. -/
def Node.Attr : Node → List Attr
  | .mk _ _ _ a _ => a

/-- The nodes reached from `FirstChild` by following `NextSibling`. -/
def Node.children : Node → List Node
  | .mk _ _ _ _ c => c

/-- Go `error` values: an error of the sink, a `commandLineError`, and the wrapping
`fmt.Errorf(context + ": %w", err)`. -/
inductive GoError where
  | sink (msg : String)
  | commandLineError (msg : String)
  | Errorf (context : String) (err : GoError)
  deriving DecidableEq, Repr

/-- Method `Error()`: the message of an error. -/
def GoError.Error : GoError → String
  | .sink msg => msg
  | .commandLineError msg => msg
  | .Errorf context err => context ++ ": " ++ err.Error

/-- The interface `stringWriter` over sink states `σ`: one write of a string, giving the
new sink state and the error (`none` for `nil`).  `Write` and `WriteString` of the sink
are the same operation on the text. -/
structure stringWriter (σ : Type) where
  WriteString : σ → String → σ × Option GoError

/-- An in-memory sink that never fails: the state is the text written so far. -/
def bufferWriter : stringWriter String where
  WriteString := fun buf s => (buf ++ s, none)

/-! ### `github.com/ttacon/chalk`: the colour codes

`Color{n}.String()` is `ESC[` + (30 + n) + `m`; `Reset` is the style with foreground and
background `ResetColor`, whose `String()` is `ESC[49m` followed by `ESC[39m`. -/

namespace chalk

/-- The string `chalk.Green.String()`. -/
def Green : String := "\x1b[32m"

/-- The string `chalk.Yellow.String()`. -/
def Yellow : String := "\x1b[33m"

/-- The string `chalk.Magenta.String()`. -/
def Magenta : String := "\x1b[35m"

/-- The string `chalk.Cyan.String()`. -/
def Cyan : String := "\x1b[36m"

/-- The string `chalk.ResetColor.String()`. -/
def ResetColor : String := "\x1b[39m"

/-- The string `chalk.Reset.String()`. -/
def Reset : String := "\x1b[49m\x1b[39m"

end chalk

/-! ### `strings.TrimSpace` and `xml.EscapeText` of the Go standard library -/

namespace unicode

/-- Go `unicode.IsSpace`: the code points with the White_Space property. -/
def IsSpace (c : Char) : Bool :=
  let r := c.toNat
  r == 0x09 || r == 0x0A || r == 0x0B || r == 0x0C || r == 0x0D || r == 0x20 ||
  r == 0x85 || r == 0xA0 || r == 0x1680 || (0x2000 ≤ r && r ≤ 0x200A) ||
  r == 0x2028 || r == 0x2029 || r == 0x202F || r == 0x205F || r == 0x3000

end unicode

namespace strings

/-- Go `strings.TrimSpace`: the string without its leading and trailing white space
(`TrimRightFunc(TrimLeftFunc(s, unicode.IsSpace), unicode.IsSpace)`). -/
def TrimSpace (s : String) : String :=
  String.mk ((s.data.dropWhile unicode.IsSpace).reverse.dropWhile unicode.IsSpace).reverse

end strings

namespace xml

/-- Go `isInCharacterRange`: the code points XML allows. -/
def isInCharacterRange (c : Char) : Bool :=
  let r := c.toNat
  r == 0x09 || r == 0x0A || r == 0x0D || (0x20 ≤ r && r ≤ 0xD7FF) ||
  (0xE000 ≤ r && r ≤ 0xFFFD) || (0x10000 ≤ r && r ≤ 0x10FFFF)

/-- The `switch r` of Go `escapeText` (with `escapeNewline = true`): the replacement of a
character, or `none` when the loop takes `continue`. -/
def esc (c : Char) : Option String :=
  if c = Char.ofNat 34 then some "&#34;"
  else if c = Char.ofNat 39 then some "&#39;"
  else if c = Char.ofNat 38 then some "&amp;"
  else if c = Char.ofNat 60 then some "&lt;"
  else if c = Char.ofNat 62 then some "&gt;"
  else if c = Char.ofNat 9 then some "&#x9;"
  else if c = Char.ofNat 10 then some "&#xA;"
  else if c = Char.ofNat 13 then some "&#xD;"
  else if !isInCharacterRange c then some "\uFFFD"
  else none

/-- The loop of Go `escapeText`: `rest` is `s[i:]` and `pending` is `s[last:i]`.  On a
character with a replacement the pending text and then the replacement are written; at
the end of the input the pending text is written (`w.Write(s[last:])`).  Errors of the
sink are returned as they are. -/
def escapeText {σ : Type} (W : stringWriter σ) : List Char → List Char → σ → σ × Option GoError
  | [], pending, w => W.WriteString w (String.mk pending)
  | c :: rest, pending, w =>
    match esc c with
    | none => escapeText W rest (pending ++ [c]) w
    | some e =>
      match W.WriteString w (String.mk pending) with
      | (w, some err) => (w, some err)
      | (w, none) =>
        match W.WriteString w e with
        | (w, some err) => (w, some err)
        | (w, none) => escapeText W rest [] w

/-- Go `xml.EscapeText(w, []byte(s))`. -/
def EscapeText {σ : Type} (W : stringWriter σ) (s : String) (w : σ) : σ × Option GoError :=
  escapeText W s.data [] w

end xml

/-! ## `main.go` -/

/-- The struct `options`. -/
structure options where
  expression : String
  contentsOnly : Bool
  color : Bool
  noColor : Bool
  noChildren : Bool
  printHelp : Bool
  deriving DecidableEq, Repr

/-- The zero value `options{}`. -/
def options.zero : options :=
  ⟨"", false, false, false, false, false⟩

/-- How a call ends: the process exits (`os.Exit(code)`) or the call returns. -/
inductive Outcome (α : Type) where
  | exit (code : Nat)
  | returned (value : α)
  deriving DecidableEq, Repr

/-- Function `parseOptions`, from the point where `flag.Parse()` has stored the flag
values in `opts`: the returned pair is `(options, error)`. -/
def parseOptions (opts : options) : Outcome (options × Option GoError) :=
  if opts.printHelp then
    Outcome.exit 0
  else if opts.expression = "" then
    Outcome.returned (options.zero, some (GoError.commandLineError "no expression specified"))
  else if opts.color && opts.noColor then
    Outcome.returned
      (options.zero, some (GoError.commandLineError "cannot use -color and -no-color together"))
  else
    Outcome.returned (opts, none)

/-! ### The flag definitions of `parseOptions` (package `flag` of the Go standard library) -/

/-- The state of a `flag.FlagSet` that the flag definitions read and change: its name and
the names of the flags defined so far (the keys of its map `formal`).  The global
`flag.CommandLine` is the set named after the program, with no flag defined when the
process starts. -/
structure FlagSet where
  name : String
  formal : List String
  deriving DecidableEq, Repr

/-- Go `FlagSet.Var`, which `flag.BoolVar` and `flag.StringVar` call on
`flag.CommandLine`, for a flag name that does not begin with `-` and has no `=`: when the
name is already defined it panics with the message returned here as the error, otherwise
it defines the name. -/
def FlagSet.Var (f : FlagSet) (name : String) : Except String FlagSet :=
  if name ∈ f.formal then
    Except.error
      (if f.name = "" then "flag redefined: " ++ name
        else f.name ++ " flag redefined: " ++ name)
  else
    Except.ok ⟨f.name, f.formal ++ [name]⟩

/-- A sequence of flag definitions, in order; the first panic ends it. -/
def defineFlags : FlagSet → List String → Except String FlagSet
  | f, [] => Except.ok f
  | f, name :: rest =>
    match f.Var name with
    | Except.error msg => Except.error msg
    | Except.ok f' => defineFlags f' rest

/-- How a call of `parseOptions` from its first line ends: with a panic of a flag
definition, or with the new state of `flag.CommandLine` and the outcome of the rest of
the call. -/
inductive CallResult where
  | panicked (msg : String)
  | done (CommandLine : FlagSet) (outcome : Outcome (options × Option GoError))
  deriving DecidableEq, Repr

/-- Function `parseOptions` from its first line: the six flags are defined on the global
`flag.CommandLine` (lines 88 to 93), `flag.Parse()` stores the values `parsed` given by
the command line (line 95), and the rest of the call is `parseOptions parsed`. -/
def parseOptionsCall (CommandLine : FlagSet) (parsed : options) : CallResult :=
  match defineFlags CommandLine
      ["help", "expr", "contents-only", "color", "no-color", "no-children"] with
  | Except.error msg => CallResult.panicked msg
  | Except.ok f => CallResult.done f (parseOptions parsed)

/-- The variable `useColor` of `run` (lines 60 to 65), from the terminal detection
`isTerminal` and the options. -/
def useColor (isTerminal : Bool) (opts : options) : Bool :=
  let useColor := isTerminal || opts.color
  if opts.noColor then false else useColor

/-- The statement `if _, err := writer.WriteString(s); err != nil
{ return fmt.Errorf(context + ": %w", err) }`: the new sink state, and the wrapped error
if the write failed. -/
def writeString {σ : Type} (W : stringWriter σ) (context : String) (s : String) (w : σ) :
    σ × Option GoError :=
  match W.WriteString w s with
  | (w, some err) => (w, some (GoError.Errorf context err))
  | (w, none) => (w, none)

/-- The block `if color { write code }`. -/
def writeColor {σ : Type} (W : stringWriter σ) (color : Bool) (code : String) (w : σ) :
    σ × Option GoError :=
  if color then writeString W "write color code" code w else (w, none)

/-- Sequencing of two statements: an error of the first returns at once. -/
def andThen {σ : Type} (r : σ × Option GoError) (k : σ → σ × Option GoError) :
    σ × Option GoError :=
  match r with
  | (w, some err) => (w, some err)
  | (w, none) => k w

/-- The variable `attrName` (lines 183 to 186). -/
def attrName (attr : Attr) : String :=
  if attr.Name.Space ≠ "" then attr.Name.Space ++ ":" ++ attr.Name.Local else attr.Name.Local

/-- The body of the attribute loop (lines 177 to 210) for one attribute. -/
def outputAttr {σ : Type} (W : stringWriter σ) (color : Bool) (attr : Attr) (w : σ) :
    σ × Option GoError :=
  andThen (writeColor W color chalk.Yellow w) fun w =>
  andThen (writeString W "write XML" (" " ++ attrName attr ++ "=\"") w) fun w =>
  andThen (writeColor W color (chalk.Reset ++ chalk.Cyan) w) fun w =>
  andThen (writeString W "write XML" attr.Value w) fun w =>
  andThen (writeColor W color (chalk.Reset ++ chalk.Yellow) w) fun w =>
  writeString W "write XML" "\"" w

/-- The loop `for _, attr := range node.Attr` (lines 176 to 211). -/
def outputAttrs {σ : Type} (W : stringWriter σ) (color : Bool) : List Attr → σ → σ × Option GoError
  | [], w => (w, none)
  | attr :: rest, w => andThen (outputAttr W color attr w) fun w => outputAttrs W color rest w

/-- The variable `fullNodeName` (lines 135 to 138). -/
def fullNodeName (Data : String) (Prefix : String) : String :=
  if Prefix ≠ "" then Prefix ++ ":" ++ Data else Data

mutual

/-- Function `outputXMLToBuffer`. -/
def outputXMLToBuffer {σ : Type} (W : stringWriter σ) :
    Node → Bool → Bool → σ → σ × Option GoError
  | .mk Typ Data Prefix Attr children, color, recursive, w =>
    if Typ = NodeType.TextNode ∨ Typ = NodeType.CommentNode then
      match xml.EscapeText W (strings.TrimSpace Data) w with
      | (w, some err) => (w, some (GoError.Errorf "write XML" err))
      | (w, none) => (w, none)
    else
      andThen
        (if Typ = NodeType.DeclarationNode then
          andThen (writeColor W color chalk.Green w) fun w =>
          writeString W "write XML" ("<?" ++ Data) w
        else
          andThen (writeColor W color chalk.Magenta w) fun w =>
          writeString W "write XML" ("<" ++ fullNodeName Data Prefix) w) fun w =>
      andThen (writeColor W color chalk.Reset w) fun w =>
      andThen (outputAttrs W color Attr w) fun w =>
      andThen (writeColor W color chalk.Reset w) fun w =>
      andThen
        (if Typ = NodeType.DeclarationNode then
          andThen (writeColor W color chalk.Green w) fun w =>
          writeString W "write XML" "?>" w
        else
          andThen (writeColor W color chalk.Magenta w) fun w =>
          writeString W "write XML" ">" w) fun w =>
      andThen (writeColor W color chalk.Reset w) fun w =>
      andThen
        (if recursive then outputSiblings W children color recursive w else (w, none)) fun w =>
      if Typ ≠ NodeType.DeclarationNode then
        andThen (writeColor W color chalk.Magenta w) fun w =>
        andThen (writeString W "write XML" ("</" ++ fullNodeName Data Prefix ++ ">") w) fun w =>
        writeColor W color chalk.ResetColor w
      else
        (w, none)

/-- The loop `for n := first; n != nil; n = n.NextSibling` over a chain of siblings, with
the body `if err := outputXMLToBuffer(writer, n, color, recursive); err != nil
{ return err }` (lines 125 to 129 and 248 to 252). -/
def outputSiblings {σ : Type} (W : stringWriter σ) :
    List Node → Bool → Bool → σ → σ × Option GoError
  | [], _, _, w => (w, none)
  | n :: rest, color, recursive, w =>
    andThen (outputXMLToBuffer W n color recursive w) fun w =>
    outputSiblings W rest color recursive w

end

/-- Function `outputXML`. -/
def outputXML {σ : Type} (W : stringWriter σ) (node : Node) (self : Bool) (color : Bool)
    (recursive : Bool) (w : σ) : σ × Option GoError :=
  if self then
    andThen (outputXMLToBuffer W node color recursive w) fun w => (w, none)
  else
    outputSiblings W node.children color recursive w

/-- The loop of `run` over the matched nodes (lines 72 to 80): each node is rendered by
`outputXML` and followed by a write of a newline. -/
def runLoop {σ : Type} (W : stringWriter σ) (opts : options) (useColor : Bool) :
    List Node → σ → σ × Option GoError
  | [], w => (w, none)
  | node :: rest, w =>
    andThen (outputXML W node (!opts.contentsOnly) useColor (!opts.noChildren) w) fun w =>
    andThen (writeString W "write XML" "\n" w) fun w =>
    runLoop W opts useColor rest w

/-- Function `run`, with standard output as the sink `W`.  The collaborators are taken as
arguments: `flags` are the flag values stored by `flag.Parse()`, `Parse` is the result of
`xmlquery.Parse(os.Stdin)`, `isTerminal` the terminal detection and `QueryAll` the
function `xmlquery.QueryAll`. -/
def run {σ : Type} (W : stringWriter σ) (flags : options) (Parse : Except GoError Node)
    (isTerminal : Bool) (QueryAll : Node → String → Except GoError (List Node)) (w : σ) :
    Outcome (σ × Option GoError) :=
  match parseOptions flags with
  | Outcome.exit code => Outcome.exit code
  | Outcome.returned (_, some err) => Outcome.returned (w, some err)
  | Outcome.returned (opts, none) =>
    match Parse with
    | Except.error err => Outcome.returned (w, some (GoError.Errorf "parse XML" err))
    | Except.ok doc =>
      match QueryAll doc opts.expression with
      | Except.error err => Outcome.returned (w, some (GoError.Errorf "execute query" err))
      | Except.ok nodes => Outcome.returned (runLoop W opts (useColor isTerminal opts) nodes w)

/-! ### Test sinks -/

/-- The state of a recording sink: the writes that succeeded, oldest first, and the
number of writes attempted. -/
structure Tape where
  written : List String
  attempts : Nat
  deriving DecidableEq, Repr

/-- A sink that records its writes and whose `k`-th write, counted from 1, fails; every
other write succeeds.  With `k = 0` no write fails. -/
def failingWriter (k : Nat) : stringWriter Tape where
  WriteString := fun t s =>
    if t.attempts + 1 = k then (⟨t.written, t.attempts + 1⟩, some (GoError.sink "write failed"))
    else (⟨t.written ++ [s], t.attempts + 1⟩, none)

/-! ## The writes of a render

The serializer is a straight sequence of writes, each followed by an early return on
error.  The sequence of writes a render attempts is computed here as a list of
`(context, text)` pairs: `text` is the string written and `context` the context its
error is wrapped with. -/

/-- Performs the writes of a list in order, stopping at the first that fails. -/
def runWrites {σ : Type} (W : stringWriter σ) : List (String × String) → σ → σ × Option GoError
  | [], w => (w, none)
  | op :: rest, w => andThen (writeString W op.1 op.2 w) fun w => runWrites W rest w

/-- The concatenation of the texts of a list of writes. -/
def textOf : List (String × String) → String
  | [] => ""
  | op :: rest => op.2 ++ textOf rest

/-- The concatenation of a list of strings. -/
def concat : List String → String
  | [] => ""
  | s :: rest => s ++ concat rest

/-- The write of `if color { write code }`. -/
def colorWrites (color : Bool) (code : String) : List (String × String) :=
  if color then [("write color code", code)] else []

/-- The texts written by the loop of `escapeText`. -/
def escapeWrites : List Char → List Char → List String
  | [], pending => [String.mk pending]
  | c :: rest, pending =>
    match xml.esc c with
    | none => escapeWrites rest (pending ++ [c])
    | some e => String.mk pending :: e :: escapeWrites rest []

/-- The writes of the attribute loop body for one attribute. -/
def attrWrites (color : Bool) (attr : Attr) : List (String × String) :=
  colorWrites color chalk.Yellow ++ [("write XML", " " ++ attrName attr ++ "=\"")] ++
  colorWrites color (chalk.Reset ++ chalk.Cyan) ++ [("write XML", attr.Value)] ++
  colorWrites color (chalk.Reset ++ chalk.Yellow) ++ [("write XML", "\"")]

/-- The writes of the attribute loop. -/
def attrsWrites (color : Bool) : List Attr → List (String × String)
  | [] => []
  | attr :: rest => attrWrites color attr ++ attrsWrites color rest

mutual

/-- The writes of `outputXMLToBuffer`. -/
def nodeWrites : Node → Bool → Bool → List (String × String)
  | .mk Typ Data Prefix Attr children, color, recursive =>
    if Typ = NodeType.TextNode ∨ Typ = NodeType.CommentNode then
      (escapeWrites (strings.TrimSpace Data).data []).map fun s => ("write XML", s)
    else
      (if Typ = NodeType.DeclarationNode then
        colorWrites color chalk.Green ++ [("write XML", "<?" ++ Data)]
      else
        colorWrites color chalk.Magenta ++ [("write XML", "<" ++ fullNodeName Data Prefix)]) ++
      (colorWrites color chalk.Reset ++
      (attrsWrites color Attr ++
      (colorWrites color chalk.Reset ++
      ((if Typ = NodeType.DeclarationNode then
        colorWrites color chalk.Green ++ [("write XML", "?>")]
      else
        colorWrites color chalk.Magenta ++ [("write XML", ">")]) ++
      (colorWrites color chalk.Reset ++
      ((if recursive then siblingsWrites children color recursive else []) ++
      (if Typ ≠ NodeType.DeclarationNode then
        colorWrites color chalk.Magenta ++
        ([("write XML", "</" ++ fullNodeName Data Prefix ++ ">")] ++
        colorWrites color chalk.ResetColor)
      else
        [])))))))

/-- The writes of the loop over a chain of siblings. -/
def siblingsWrites : List Node → Bool → Bool → List (String × String)
  | [], _, _ => []
  | n :: rest, color, recursive =>
    nodeWrites n color recursive ++ siblingsWrites rest color recursive

end

/-- The text `outputXMLToBuffer` writes for a node into an empty in-memory sink. -/
def render (node : Node) (color : Bool) (recursive : Bool) : String :=
  (outputXMLToBuffer bufferWriter node color recursive "").1

/-- The replacement `escapeText` writes for one character: its escape, or the character
itself. -/
def escapeChar (c : Char) : String :=
  (xml.esc c).getD (String.singleton c)

/-- The XML-escaped form of a string: every character replaced by `escapeChar`. -/
def escaped (s : String) : String :=
  concat (s.data.map escapeChar)

/-- The uncoloured text of one attribute: a space, the qualified name, `="`, the raw
value and `"`. -/
def attrText (attr : Attr) : String :=
  " " ++ (if attr.Name.Space = "" then attr.Name.Local
    else attr.Name.Space ++ ":" ++ attr.Name.Local) ++ "=\"" ++ attr.Value ++ "\""

/-- The writes of `outputXML`. -/
def outputXMLWrites (node : Node) (self : Bool) (color : Bool) (recursive : Bool) :
    List (String × String) :=
  if self then nodeWrites node color recursive
  else siblingsWrites node.children color recursive

/-- The writes of the loop of `run`. -/
def runLoopWrites (opts : options) (useColor : Bool) : List Node → List (String × String)
  | [] => []
  | node :: rest =>
    outputXMLWrites node (!opts.contentsOnly) useColor (!opts.noChildren) ++
    (("write XML", "\n") :: runLoopWrites opts useColor rest)

/-- The writes `outputXML` makes into a sink that never fails, in order. -/
def recorded (node : Node) (self : Bool) (color : Bool) (recursive : Bool) : List String :=
  (outputXML (failingWriter 0) node self color recursive ⟨[], 0⟩).1.written

/-- Whether a string has no newline character. -/
def newlineFree (s : String) : Bool :=
  s.data.all fun c => c != Char.ofNat 10

/-- Whether an attribute has no newline in its prefix, name and value. -/
def attrNewlineFree (attr : Attr) : Bool :=
  newlineFree attr.Name.Space && newlineFree attr.Name.Local && newlineFree attr.Value

mutual

/-- Whether none of the strings `outputXMLToBuffer` writes as they are for a node has a
newline: for a node that is not a text or comment node, its data, its prefix unless it
is a declaration, the prefix, name and value of its attributes, and the same for its
children when `recursive` is set. -/
def rawNewlineFree : Node → Bool → Bool
  | .mk Typ Data Prefix Attr children, recursive =>
    if Typ = NodeType.TextNode ∨ Typ = NodeType.CommentNode then true
    else
      (if Typ = NodeType.DeclarationNode then newlineFree Data
        else newlineFree Data && newlineFree Prefix) &&
      (Attr.all attrNewlineFree &&
      (if recursive then rawNewlineFreeList children recursive else true))

/-- The same for the nodes of a chain of siblings. -/
def rawNewlineFreeList : List Node → Bool → Bool
  | [], _ => true
  | n :: rest, recursive => rawNewlineFree n recursive && rawNewlineFreeList rest recursive

end

/-- The strings the `if color` blocks of `outputXMLToBuffer` write. -/
def colorCodes : List String :=
  [chalk.Green, chalk.Magenta, chalk.Yellow, chalk.Reset, chalk.ResetColor,
    chalk.Reset ++ chalk.Cyan, chalk.Reset ++ chalk.Yellow]

/-- The colour in force after a write of colour codes: the last code of the write, and
`none` when that is a reset. -/
def colorAfter (code : String) : Option String :=
  if code = chalk.Reset ∨ code = chalk.ResetColor then none
  else if code = chalk.Reset ++ chalk.Cyan then some chalk.Cyan
  else if code = chalk.Reset ++ chalk.Yellow then some chalk.Yellow
  else some code

/-- Pairs every write of XML text with the colour in force when it is written, starting
from the colour `active`. -/
def colored : Option String → List (String × String) → List (Option String × String)
  | _, [] => []
  | active, op :: rest =>
    if op.1 = "write color code" then colored (colorAfter op.2) rest
    else (active, op.2) :: colored active rest

/-- Whether, in a list of writes, every colour code is followed by a reset before the
next colour code and before the end; `isOpen` tells whether a colour is open at the
start. -/
def colorsClosed : Bool → List (String × String) → Bool
  | isOpen, [] => !isOpen
  | isOpen, op :: rest =>
    if op.1 = "write color code" then
      if op.2 = chalk.Reset ∨ op.2 = chalk.ResetColor then colorsClosed false rest
      else !isOpen && colorsClosed true rest
    else colorsClosed isOpen rest

/-! ## Lemmas on sequencing and on the writes of a render -/

theorem andThen_ok {σ : Type} (w : σ) (k : σ → σ × Option GoError) :
    andThen (w, none) k = k w := rfl

theorem andThen_err {σ : Type} (w : σ) (err : GoError) (k : σ → σ × Option GoError) :
    andThen (w, some err) k = (w, some err) := rfl

theorem andThen_pure {σ : Type} (r : σ × Option GoError) :
    andThen r (fun w => (w, none)) = r := by
  rcases r with ⟨w, _ | err⟩ <;> rfl

theorem andThen_assoc {σ : Type} (r : σ × Option GoError) (k₁ k₂ : σ → σ × Option GoError) :
    andThen (andThen r k₁) k₂ = andThen r (fun w => andThen (k₁ w) k₂) := by
  rcases r with ⟨w, _ | err⟩ <;> rfl

theorem runWrites_nil {σ : Type} (W : stringWriter σ) (w : σ) :
    runWrites W [] w = (w, none) := rfl

theorem runWrites_cons {σ : Type} (W : stringWriter σ) (op : String × String)
    (rest : List (String × String)) (w : σ) :
    runWrites W (op :: rest) w
      = andThen (writeString W op.1 op.2 w) (fun w => runWrites W rest w) := rfl

theorem runWrites_append {σ : Type} (W : stringWriter σ) (l₁ l₂ : List (String × String))
    (w : σ) :
    runWrites W (l₁ ++ l₂) w = andThen (runWrites W l₁ w) (fun w => runWrites W l₂ w) := by
  induction l₁ generalizing w with
  | nil => rfl
  | cons op rest ih =>
    simp only [List.cons_append, runWrites_cons, andThen_assoc, ih]

theorem runWrites_singleton {σ : Type} (W : stringWriter σ) (context s : String) (w : σ) :
    runWrites W [(context, s)] w = writeString W context s w := by
  simp only [runWrites_cons, runWrites_nil, andThen_pure]

theorem runWrites_colorWrites {σ : Type} (W : stringWriter σ) (color : Bool) (code : String)
    (w : σ) :
    runWrites W (colorWrites color code) w = writeColor W color code w := by
  cases color
  · rfl
  · simp only [colorWrites, writeColor, if_true, runWrites_singleton]

theorem runWrites_ite {σ : Type} (W : stringWriter σ) (c : Prop) [Decidable c]
    (l₁ l₂ : List (String × String)) (w : σ) :
    runWrites W (if c then l₁ else l₂) w = if c then runWrites W l₁ w else runWrites W l₂ w := by
  split <;> rfl

theorem outputAttr_eq {σ : Type} (W : stringWriter σ) (color : Bool) (attr : Attr) (w : σ) :
    outputAttr W color attr w = runWrites W (attrWrites color attr) w := by
  simp only [outputAttr, attrWrites, runWrites_append, runWrites_colorWrites,
    runWrites_singleton, andThen_assoc]

theorem outputAttrs_eq {σ : Type} (W : stringWriter σ) (color : Bool) (attrs : List Attr)
    (w : σ) :
    outputAttrs W color attrs w = runWrites W (attrsWrites color attrs) w := by
  induction attrs generalizing w with
  | nil => rfl
  | cons attr rest ih =>
    simp only [outputAttrs, attrsWrites, runWrites_append, outputAttr_eq, ih]

theorem escapeText_eq {σ : Type} (W : stringWriter σ) (cs pending : List Char) (w : σ) :
    (match xml.escapeText W cs pending w with
      | (w, some err) => (w, some (GoError.Errorf "write XML" err))
      | (w, none) => (w, none))
      = runWrites W ((escapeWrites cs pending).map fun s => ("write XML", s)) w := by
  induction cs generalizing pending w with
  | nil =>
    simp only [xml.escapeText, escapeWrites, List.map, runWrites_singleton, writeString]
  | cons c rest ih =>
    simp only [xml.escapeText, escapeWrites]
    cases hc : xml.esc c with
    | none => simpa using ih (pending ++ [c]) w
    | some e =>
      simp only [List.map, runWrites_cons, writeString]
      rcases h₁ : W.WriteString w (String.mk pending) with ⟨w₁, _ | err₁⟩
      · simp only [andThen_ok]
        rcases h₂ : W.WriteString w₁ e with ⟨w₂, _ | err₂⟩
        · simpa only [andThen_ok] using ih [] w₂
        · simp only [andThen_err]
      · simp only [andThen_err]

mutual

theorem outputXMLToBuffer_eq {σ : Type} (W : stringWriter σ) :
    ∀ (node : Node) (color recursive : Bool) (w : σ),
      outputXMLToBuffer W node color recursive w
        = runWrites W (nodeWrites node color recursive) w
  | .mk Typ Data Prefix Attr children, color, recursive, w => by
    have ih := outputSiblings_eq W children color recursive
    unfold outputXMLToBuffer nodeWrites
    by_cases hleaf : Typ = NodeType.TextNode ∨ Typ = NodeType.CommentNode
    · simp only [hleaf, if_true, xml.EscapeText]
      exact escapeText_eq W _ [] w
    · simp only [hleaf, if_false, runWrites_append, runWrites_ite, runWrites_colorWrites,
        runWrites_singleton, runWrites_nil, andThen_assoc, ih, outputAttrs_eq]

theorem outputSiblings_eq {σ : Type} (W : stringWriter σ) :
    ∀ (nodes : List Node) (color recursive : Bool) (w : σ),
      outputSiblings W nodes color recursive w
        = runWrites W (siblingsWrites nodes color recursive) w
  | [], _, _, _ => by
    unfold outputSiblings siblingsWrites
    rfl
  | n :: rest, color, recursive, w => by
    have ih₁ := outputXMLToBuffer_eq W n color recursive
    have ih₂ := outputSiblings_eq W rest color recursive
    unfold outputSiblings siblingsWrites
    simp only [runWrites_append, ih₁, ih₂]

end

/-! ## The in-memory sink -/

theorem textOf_append (l₁ l₂ : List (String × String)) :
    textOf (l₁ ++ l₂) = textOf l₁ ++ textOf l₂ := by
  induction l₁ with
  | nil => simp [textOf]
  | cons op rest ih => simp [textOf, ih, String.append_assoc]

theorem concat_append (l₁ l₂ : List String) : concat (l₁ ++ l₂) = concat l₁ ++ concat l₂ := by
  induction l₁ with
  | nil => simp [concat]
  | cons s rest ih => simp [concat, ih, String.append_assoc]

theorem runWrites_buffer (l : List (String × String)) (buf : String) :
    runWrites bufferWriter l buf = (buf ++ textOf l, none) := by
  induction l generalizing buf with
  | nil => simp [runWrites, textOf]
  | cons op rest ih =>
    have hw : writeString bufferWriter op.1 op.2 buf = (buf ++ op.2, none) := rfl
    rw [runWrites_cons, hw, andThen_ok, ih, textOf, String.append_assoc]

theorem render_eq (node : Node) (color recursive : Bool) :
    render node color recursive = textOf (nodeWrites node color recursive) := by
  simp [render, outputXMLToBuffer_eq, runWrites_buffer]

theorem outputXMLToBuffer_buffer (node : Node) (color recursive : Bool) (buf : String) :
    outputXMLToBuffer bufferWriter node color recursive buf
      = (buf ++ render node color recursive, none) := by
  rw [render_eq, outputXMLToBuffer_eq, runWrites_buffer]

theorem textOf_siblingsWrites (nodes : List Node) (color recursive : Bool) :
    textOf (siblingsWrites nodes color recursive)
      = concat (nodes.map fun c => render c color recursive) := by
  induction nodes with
  | nil => simp [siblingsWrites, textOf, concat]
  | cons n rest ih => simp [siblingsWrites, textOf_append, concat, ih, render_eq]

theorem outputSiblings_buffer (nodes : List Node) (color recursive : Bool) (buf : String) :
    outputSiblings bufferWriter nodes color recursive buf
      = (buf ++ concat (nodes.map fun c => render c color recursive), none) := by
  rw [outputSiblings_eq, runWrites_buffer, textOf_siblingsWrites]

theorem textOf_attrsWrites (attrs : List Attr) :
    textOf (attrsWrites false attrs) = concat (attrs.map attrText) := by
  induction attrs with
  | nil => simp [attrsWrites, textOf, concat]
  | cons attr rest ih =>
    simp only [attrsWrites, textOf_append, ih, List.map, concat]
    congr 1
    by_cases h : attr.Name.Space = "" <;>
      simp [attrWrites, colorWrites, textOf, attrText, attrName, h, String.append_assoc]

theorem mk_append_singleton (pending : List Char) (c : Char) :
    String.mk (pending ++ [c]) = String.mk pending ++ String.singleton c := by
  apply String.ext
  simp [String.singleton]

theorem textOf_escapeWrites (cs pending : List Char) :
    textOf ((escapeWrites cs pending).map fun s => ("write XML", s))
      = String.mk pending ++ concat (cs.map escapeChar) := by
  induction cs generalizing pending with
  | nil => simp [escapeWrites, textOf, concat]
  | cons c rest ih =>
    simp only [escapeWrites, List.map, concat, escapeChar]
    cases hc : xml.esc c with
    | none =>
      simp only [ih, mk_append_singleton, Option.getD_none, String.append_assoc]
    | some e =>
      simp only [List.map, textOf, ih, Option.getD_some]
      congr 1

theorem close_open_append (s : String) : ">" ++ ("</" ++ s) = "></" ++ s := by
  rw [← String.append_assoc]
  rfl

/-- The uncoloured text of a node that is not a text or comment node. -/
theorem render_tag (Typ : NodeType) (Data Prefix : String) (Attr : List Attr)
    (children : List Node) (recursive : Bool)
    (hText : Typ ≠ NodeType.TextNode) (hComment : Typ ≠ NodeType.CommentNode) :
    render (Node.mk Typ Data Prefix Attr children) false recursive
      = (if Typ = NodeType.DeclarationNode then "<?" ++ Data
          else "<" ++ fullNodeName Data Prefix) ++
        (concat (Attr.map attrText) ++
        ((if Typ = NodeType.DeclarationNode then "?>" else ">") ++
        ((if recursive then concat (children.map fun c => render c false true) else "") ++
        (if Typ = NodeType.DeclarationNode then ""
          else "</" ++ fullNodeName Data Prefix ++ ">")))) := by
  rw [render_eq]
  unfold nodeWrites
  have hleaf : ¬(Typ = NodeType.TextNode ∨ Typ = NodeType.CommentNode) := by
    rintro (h | h)
    · exact hText h
    · exact hComment h
  by_cases hd : Typ = NodeType.DeclarationNode <;> cases recursive <;>
    simp [hleaf, hd, textOf_append, textOf_attrsWrites, textOf_siblingsWrites, colorWrites,
      textOf, String.append_assoc]

/-! ## The serializer without colour -/

/-- C1: an Element node with no attributes, rendered without colour and with recursion
on, writes `<` + fullName + `>`, then the renderings of its direct children in sibling
order (each with the same flags), then `</` + fullName + `>`; with no children it writes
exactly `<name></name>`. -/
theorem element_without_attributes_renders_tag_pair (node : Node) (buf : String)
    (hType : node.Typ = NodeType.ElementNode) (hAttr : node.Attr = []) :
    outputXMLToBuffer bufferWriter node false true buf
        = (buf ++ ("<" ++ fullNodeName node.Data node.Prefix ++ ">" ++
            concat (node.children.map fun c => render c false true) ++
            "</" ++ fullNodeName node.Data node.Prefix ++ ">"), none)
      ∧ (node.children = [] →
          outputXMLToBuffer bufferWriter node false true buf
            = (buf ++ ("<" ++ fullNodeName node.Data node.Prefix ++ "></" ++
                fullNodeName node.Data node.Prefix ++ ">"), none)) := by
  cases node with
  | mk Typ Data Prefix Attr children =>
    simp only [Node.Typ, Node.Attr, Node.Data, Node.Prefix, Node.children] at hType hAttr ⊢
    subst hType hAttr
    rw [outputXMLToBuffer_buffer, render_tag _ _ _ _ _ _ (by decide) (by decide)]
    constructor
    · simp [concat, String.append_assoc]
    · intro hc
      subst hc
      simp [concat, String.append_assoc, close_open_append]

/-- C1, at the element `foo` with no attribute and no child: the output is
`<foo></foo>`. -/
theorem element_without_attributes_renders_tag_pair_witness :
    (Node.mk NodeType.ElementNode "foo" "" [] []).Typ = NodeType.ElementNode
      ∧ (Node.mk NodeType.ElementNode "foo" "" [] []).Attr = []
      ∧ outputXMLToBuffer bufferWriter (Node.mk NodeType.ElementNode "foo" "" [] []) false true ""
          = ("<foo></foo>", none) :=
  ⟨rfl, rfl,
    ((element_without_attributes_renders_tag_pair
      (Node.mk NodeType.ElementNode "foo" "" [] []) "" rfl rfl).2 rfl).trans (by decide)⟩

/-- C2: for an Element node, the uncoloured output is `<` + fullName, then for each
attribute in source order a space, the qualified name (prefix + `:` + local when the
attribute has a prefix, local otherwise), `="`, the value as it is and `"`, then `>`,
followed by the children (when recursion is on) and the closing tag. -/
theorem opening_tag_lists_attributes_in_order (node : Node) (recursive : Bool) (buf : String)
    (hType : node.Typ = NodeType.ElementNode) :
    outputXMLToBuffer bufferWriter node false recursive buf
      = (buf ++ ("<" ++ fullNodeName node.Data node.Prefix ++
          concat (node.Attr.map fun a =>
            " " ++ (if a.Name.Space = "" then a.Name.Local
              else a.Name.Space ++ ":" ++ a.Name.Local) ++ "=\"" ++ a.Value ++ "\"") ++
          ">" ++
          (if recursive then concat (node.children.map fun c => render c false true) else "") ++
          "</" ++ fullNodeName node.Data node.Prefix ++ ">"), none) := by
  cases node with
  | mk Typ Data Prefix Attr children =>
    simp only [Node.Typ, Node.Attr, Node.Data, Node.Prefix, Node.children] at hType ⊢
    subst hType
    rw [outputXMLToBuffer_buffer, render_tag _ _ _ _ _ _ (by decide) (by decide)]
    have hattr : (fun a : XmlQuery.Attr =>
        " " ++ (if a.Name.Space = "" then a.Name.Local
          else a.Name.Space ++ ":" ++ a.Name.Local) ++ "=\"" ++ a.Value ++ "\"") = attrText := by
      funext a
      rfl
    rw [hattr]
    simp [String.append_assoc]

/-- C2, at an element with the attributes `id="1"` and `class="a&b"`: both are written
in that order and the `&` is left as it is. -/
theorem opening_tag_lists_attributes_in_order_witness :
    (Node.mk NodeType.ElementNode "e" "" [⟨⟨"", "id"⟩, "1"⟩, ⟨⟨"", "class"⟩, "a&b"⟩] []).Typ
        = NodeType.ElementNode
      ∧ outputXMLToBuffer bufferWriter
          (Node.mk NodeType.ElementNode "e" "" [⟨⟨"", "id"⟩, "1"⟩, ⟨⟨"", "class"⟩, "a&b"⟩] [])
          false true ""
        = ("<e id=\"1\" class=\"a&b\"></e>", none) :=
  ⟨rfl,
    (opening_tag_lists_attributes_in_order
      (Node.mk NodeType.ElementNode "e" "" [⟨⟨"", "id"⟩, "1"⟩, ⟨⟨"", "class"⟩, "a&b"⟩] [])
      true "" rfl).trans (by decide)⟩

/-- C3: for a Text or Comment node, whatever the flags, children, attributes and prefix,
the renderer leaves every sink in the state `xml.EscapeText` of the trimmed data leaves
it in, and fails exactly when that call fails; into the in-memory sink it writes exactly
the escaped form of the trimmed data. -/
theorem text_and_comment_render_escaped_trimmed_data (node : Node) (color recursive : Bool)
    (hType : node.Typ = NodeType.TextNode ∨ node.Typ = NodeType.CommentNode) :
    (∀ (σ : Type) (W : stringWriter σ) (w : σ),
        (outputXMLToBuffer W node color recursive w).1
            = (xml.EscapeText W (strings.TrimSpace node.Data) w).1
          ∧ ((outputXMLToBuffer W node color recursive w).2 = none
              ↔ (xml.EscapeText W (strings.TrimSpace node.Data) w).2 = none))
      ∧ ∀ buf : String,
          outputXMLToBuffer bufferWriter node color recursive buf
            = (buf ++ escaped (strings.TrimSpace node.Data), none) := by
  cases node with
  | mk Typ Data Prefix Attr children =>
    simp only [Node.Typ, Node.Data] at hType ⊢
    constructor
    · intro σ W w
      unfold outputXMLToBuffer
      simp only [hType, if_true]
      rcases xml.EscapeText W (strings.TrimSpace Data) w with ⟨w₁, _ | err⟩ <;> simp
    · intro buf
      rw [outputXMLToBuffer_eq, runWrites_buffer]
      unfold nodeWrites
      simp only [hType, if_true, textOf_escapeWrites, escaped]
      congr 1

/-- C3, at the Text node with data `  a < b  `, colour and recursion on: the output is
`a &lt; b`. -/
theorem text_and_comment_render_escaped_trimmed_data_witness :
    ((Node.mk NodeType.TextNode "  a < b  " "" [] []).Typ = NodeType.TextNode
        ∨ (Node.mk NodeType.TextNode "  a < b  " "" [] []).Typ = NodeType.CommentNode)
      ∧ outputXMLToBuffer bufferWriter (Node.mk NodeType.TextNode "  a < b  " "" [] []) true true ""
          = ("a &lt; b", none) :=
  ⟨Or.inl rfl,
    ((text_and_comment_render_escaped_trimmed_data
      (Node.mk NodeType.TextNode "  a < b  " "" [] []) true true (Or.inl rfl)).2 "").trans
      (by decide)⟩

/-- C4 (counterexample): a Declaration node with no attributes and one child element,
rendered without colour and with recursion on, writes the child after `?>`: the output
is `<?xml?><a></a>` and not `<?xml?>`. -/
theorem declaration_with_child_renders_child :
    outputXMLToBuffer bufferWriter
        (Node.mk NodeType.DeclarationNode "xml" "" [] [Node.mk NodeType.ElementNode "a" "" [] []])
        false true ""
      = ("<?xml?><a></a>", none)
    ∧ outputXMLToBuffer bufferWriter
        (Node.mk NodeType.DeclarationNode "xml" "" [] [Node.mk NodeType.ElementNode "a" "" [] []])
        false true ""
      ≠ ("<?" ++ "xml" ++ "?>", none) := by
  decide

/-- C4 (amended): a Declaration node with no attributes, rendered without colour, writes
`<?` + data + `?>`, then the renderings of its children when recursion is on, and no
closing tag; with recursion off, or with no children, the output is exactly
`<?` + data + `?>`. -/
theorem declaration_renders_without_closing_tag (node : Node) (recursive : Bool) (buf : String)
    (hType : node.Typ = NodeType.DeclarationNode) (hAttr : node.Attr = []) :
    outputXMLToBuffer bufferWriter node false recursive buf
        = (buf ++ ("<?" ++ node.Data ++ "?>" ++
            (if recursive then concat (node.children.map fun c => render c false true) else "")),
          none)
      ∧ (recursive = false ∨ node.children = [] →
          outputXMLToBuffer bufferWriter node false recursive buf
            = (buf ++ ("<?" ++ node.Data ++ "?>"), none)) := by
  cases node with
  | mk Typ Data Prefix Attr children =>
    simp only [Node.Typ, Node.Attr, Node.Data, Node.children] at hType hAttr ⊢
    subst hType hAttr
    rw [outputXMLToBuffer_buffer, render_tag _ _ _ _ _ _ (by decide) (by decide)]
    constructor
    · simp [concat, String.append_assoc]
    · rintro (hr | hc)
      · subst hr
        simp [concat, String.append_assoc]
      · subst hc
        simp [concat, String.append_assoc]

/-- C4 (amended), at the Declaration node with data `xml version="1.0"` and one child,
recursion off: the output is `<?xml version="1.0"?>`. -/
theorem declaration_renders_without_closing_tag_witness :
    (Node.mk NodeType.DeclarationNode "xml version=\"1.0\"" "" []
        [Node.mk NodeType.ElementNode "a" "" [] []]).Typ = NodeType.DeclarationNode
      ∧ (Node.mk NodeType.DeclarationNode "xml version=\"1.0\"" "" []
        [Node.mk NodeType.ElementNode "a" "" [] []]).Attr = []
      ∧ outputXMLToBuffer bufferWriter
          (Node.mk NodeType.DeclarationNode "xml version=\"1.0\"" "" []
            [Node.mk NodeType.ElementNode "a" "" [] []]) false false ""
        = ("<?xml version=\"1.0\"?>", none) :=
  ⟨rfl, rfl,
    ((declaration_renders_without_closing_tag
      (Node.mk NodeType.DeclarationNode "xml version=\"1.0\"" "" []
        [Node.mk NodeType.ElementNode "a" "" [] []]) false "" rfl rfl).2 (Or.inl rfl)).trans
      (by decide)⟩

/-- C5: with `self = false`, `outputXML` writes exactly the concatenation, in sibling
order, of what the renderer writes for each direct child of the node (same colour and
recursion flags) and nothing for the node itself; `<root><a/><b/></root>` matched as
`root` gives `<a></a><b></b>`. -/
theorem contents_only_renders_children_only (node : Node) (color recursive : Bool)
    (buf : String) :
    outputXML bufferWriter node false color recursive buf
        = (buf ++ concat (node.children.map fun c => render c color recursive), none)
      ∧ outputXML bufferWriter
          (Node.mk NodeType.ElementNode "root" "" []
            [Node.mk NodeType.ElementNode "a" "" [] [], Node.mk NodeType.ElementNode "b" "" [] []])
          false false true ""
        = ("<a></a><b></b>", none) := by
  constructor
  · simp only [outputXML, Bool.false_eq_true, if_false]
    exact outputSiblings_buffer _ _ _ _
  · decide

/-- C6: with `recursive = false` the renderer's writes do not depend on the children of
an Element node, for every sink and both colour settings; without colour the output is
the opening tag with its attributes immediately followed by the closing tag, and
`<root><a/></root>` matched as `root` renders as `<root></root>`. -/
theorem no_children_mode_ignores_children (Data Prefix : String) (attrs : List Attr)
    (children₁ children₂ : List Node) :
    (∀ (σ : Type) (W : stringWriter σ) (color : Bool) (w : σ),
        outputXMLToBuffer W (Node.mk NodeType.ElementNode Data Prefix attrs children₁) color false w
          = outputXMLToBuffer W (Node.mk NodeType.ElementNode Data Prefix attrs children₂)
              color false w)
      ∧ (∀ buf : String,
          outputXMLToBuffer bufferWriter
              (Node.mk NodeType.ElementNode Data Prefix attrs children₁) false false buf
            = (buf ++ ("<" ++ fullNodeName Data Prefix ++ concat (attrs.map attrText) ++ ">" ++
                "</" ++ fullNodeName Data Prefix ++ ">"), none))
      ∧ outputXML bufferWriter
          (Node.mk NodeType.ElementNode "root" "" [] [Node.mk NodeType.ElementNode "a" "" [] []])
          true false false ""
        = ("<root></root>", none) := by
  refine ⟨?_, ?_, by decide⟩
  · intro σ W color w
    have hw : nodeWrites (Node.mk NodeType.ElementNode Data Prefix attrs children₁) color false
        = nodeWrites (Node.mk NodeType.ElementNode Data Prefix attrs children₂) color false := by
      unfold nodeWrites
      simp
    rw [outputXMLToBuffer_eq, outputXMLToBuffer_eq, hw]
  · intro buf
    rw [outputXMLToBuffer_buffer, render_tag _ _ _ _ _ _ (by decide) (by decide)]
    simp [String.append_assoc, close_open_append]

/-- C7: for an Element node rendered without colour, a non-empty prefix `p` makes both
the opening and the closing tag use `p:n` (so an element with no attribute and no child
renders as `<p:n></p:n>`), and an empty prefix makes both tags use the name `n` alone. -/
theorem element_tags_use_qualified_name (node : Node) (recursive : Bool) (buf : String)
    (hType : node.Typ = NodeType.ElementNode) :
    (node.Prefix ≠ "" →
        outputXMLToBuffer bufferWriter node false recursive buf
          = (buf ++ ("<" ++ (node.Prefix ++ ":" ++ node.Data) ++
              concat (node.Attr.map attrText) ++ ">" ++
              (if recursive then concat (node.children.map fun c => render c false true)
                else "") ++
              "</" ++ (node.Prefix ++ ":" ++ node.Data) ++ ">"), none))
      ∧ (node.Prefix = "" →
        outputXMLToBuffer bufferWriter node false recursive buf
          = (buf ++ ("<" ++ node.Data ++ concat (node.Attr.map attrText) ++ ">" ++
              (if recursive then concat (node.children.map fun c => render c false true)
                else "") ++
              "</" ++ node.Data ++ ">"), none))
      ∧ (node.Prefix ≠ "" → node.Attr = [] → node.children = [] →
        outputXMLToBuffer bufferWriter node false recursive buf
          = (buf ++ ("<" ++ node.Prefix ++ ":" ++ node.Data ++ ">" ++
              "</" ++ node.Prefix ++ ":" ++ node.Data ++ ">"), none)) := by
  cases node with
  | mk Typ Data Prefix Attr children =>
    simp only [Node.Typ, Node.Attr, Node.Data, Node.Prefix, Node.children] at hType ⊢
    subst hType
    rw [outputXMLToBuffer_buffer, render_tag _ _ _ _ _ _ (by decide) (by decide)]
    refine ⟨?_, ?_, ?_⟩
    · intro hp
      simp [fullNodeName, hp, String.append_assoc]
    · intro hp
      simp [fullNodeName, hp, String.append_assoc]
    · intro hp ha hc
      subst ha hc
      cases recursive <;>
        simp [fullNodeName, hp, concat, String.append_assoc, close_open_append]

/-- C7, at the element with prefix `ns` and name `bar`, no attribute and no child: the
output is `<ns:bar></ns:bar>`. -/
theorem element_tags_use_qualified_name_witness :
    (Node.mk NodeType.ElementNode "bar" "ns" [] []).Typ = NodeType.ElementNode
      ∧ (Node.mk NodeType.ElementNode "bar" "ns" [] []).Prefix ≠ ""
      ∧ outputXMLToBuffer bufferWriter (Node.mk NodeType.ElementNode "bar" "ns" [] []) false true ""
          = ("<ns:bar></ns:bar>", none) :=
  ⟨rfl, by decide,
    ((element_tags_use_qualified_name (Node.mk NodeType.ElementNode "bar" "ns" [] []) true ""
      rfl).2.2 (by decide) rfl rfl).trans (by decide)⟩

/-! ## The colour policy and option validation -/

/-- C8: the colour policy of `run` is `(isTerminal OR color) AND NOT noColor`, for every
value of the three booleans; with `noColor` set it is false, also when the output is a
terminal and `color` is set. -/
theorem useColor_is_terminal_or_color_and_not_noColor (isTerminal : Bool) (expression : String)
    (contentsOnly color noColor noChildren printHelp : Bool) :
    useColor isTerminal ⟨expression, contentsOnly, color, noColor, noChildren, printHelp⟩
        = ((isTerminal || color) && !noColor)
      ∧ useColor isTerminal ⟨expression, contentsOnly, color, true, noChildren, printHelp⟩ = false
      ∧ useColor true ⟨expression, contentsOnly, true, true, noChildren, printHelp⟩ = false := by
  refine ⟨?_, rfl, rfl⟩
  cases isTerminal <;> cases color <;> cases noColor <;> rfl

/-- C9 (counterexample): for the flags `-expr //a`, the first call of `parseOptions` in
a process defines the six flags and returns the options; a second call does not return
an equal result: it panics in the definition of the flag `help`. -/
theorem second_parseOptions_call_panics :
    parseOptionsCall ⟨"xmlquery", []⟩ ⟨"//a", false, false, false, false, false⟩
      = CallResult.done
          ⟨"xmlquery", ["help", "expr", "contents-only", "color", "no-color", "no-children"]⟩
          (Outcome.returned (⟨"//a", false, false, false, false, false⟩, none))
    ∧ parseOptionsCall
        ⟨"xmlquery", ["help", "expr", "contents-only", "color", "no-color", "no-children"]⟩
        ⟨"//a", false, false, false, false, false⟩
      = CallResult.panicked "xmlquery flag redefined: help"
    ∧ parseOptionsCall
        ⟨"xmlquery", ["help", "expr", "contents-only", "color", "no-color", "no-children"]⟩
        ⟨"//a", false, false, false, false, false⟩
      ≠ parseOptionsCall ⟨"xmlquery", []⟩ ⟨"//a", false, false, false, false, false⟩ := by
  decide

/-- C9 (amended): with help not requested, `parseOptions` returns, and it returns an
error exactly when the expression is empty or `color` and `noColor` are both set; every
error it returns is a `commandLineError`; when it returns no error the options returned
are the flag values themselves, with a non-empty expression and not both `color` and
`noColor`.  The first call in a process (no flag defined yet) defines the six flags and
its outcome is that validation of the flag values; a second call, whatever the flag
values, panics in the definition of the flag `help`. -/
theorem parseOptions_fails_iff_invalid (opts : options) (hHelp : opts.printHelp = false) :
    (∃ r, parseOptions opts = Outcome.returned r)
      ∧ ((∃ o err, parseOptions opts = Outcome.returned (o, some err))
          ↔ (opts.expression = "" ∨ (opts.color = true ∧ opts.noColor = true)))
      ∧ (∀ o err, parseOptions opts = Outcome.returned (o, some err) →
          ∃ msg, err = GoError.commandLineError msg)
      ∧ (∀ o, parseOptions opts = Outcome.returned (o, none) →
          o = opts ∧ o.expression ≠ "" ∧ ¬(o.color = true ∧ o.noColor = true))
      ∧ (¬(opts.expression = "" ∨ (opts.color = true ∧ opts.noColor = true)) →
          parseOptions opts = Outcome.returned (opts, none))
      ∧ (∀ program : String,
          parseOptionsCall ⟨program, []⟩ opts
            = CallResult.done
                ⟨program, ["help", "expr", "contents-only", "color", "no-color", "no-children"]⟩
                (parseOptions opts))
      ∧ (∀ (program : String) (again : options),
          parseOptionsCall
              ⟨program, ["help", "expr", "contents-only", "color", "no-color", "no-children"]⟩
              again
            = CallResult.panicked
                (if program = "" then "flag redefined: help"
                  else program ++ " flag redefined: help")) := by
  have hcall : (∀ program : String,
      parseOptionsCall ⟨program, []⟩ opts
        = CallResult.done
            ⟨program, ["help", "expr", "contents-only", "color", "no-color", "no-children"]⟩
            (parseOptions opts))
      ∧ (∀ (program : String) (again : options),
          parseOptionsCall
              ⟨program, ["help", "expr", "contents-only", "color", "no-color", "no-children"]⟩
              again
            = CallResult.panicked
                (if program = "" then "flag redefined: help"
                  else program ++ " flag redefined: help")) := by
    refine ⟨fun _ => rfl, fun program _ => ?_⟩
    have hmsg : program ++ " flag redefined: " ++ "help" = program ++ " flag redefined: help" := by
      rw [String.append_assoc]
      rfl
    simp [parseOptionsCall, defineFlags, FlagSet.Var, hmsg]
  refine ⟨?_, ?_, ?_, ?_, ?_, hcall⟩
  all_goals
    rcases opts with ⟨expression, contentsOnly, color, noColor, noChildren, printHelp⟩
    simp only at hHelp
    subst hHelp
    by_cases he : expression = ""
    · subst he
      simp [parseOptions]
    · cases color <;> cases noColor <;> simp [parseOptions, he]

/-- C9 (amended), at the flags `-expr //a -color`: validation returns the flag
values. -/
theorem parseOptions_fails_iff_invalid_witness :
    (⟨"//a", false, true, false, false, false⟩ : options).printHelp = false
      ∧ parseOptions ⟨"//a", false, true, false, false, false⟩
          = Outcome.returned (⟨"//a", false, true, false, false, false⟩, none) :=
  ⟨rfl,
    (parseOptions_fails_iff_invalid ⟨"//a", false, true, false, false, false⟩ rfl).2.2.2.2.1
      (by decide)⟩

/-- C10 (counterexample): with `color` and `noColor` both set and an empty expression,
validation fails with the message `no expression specified`, not with
`cannot use -color and -no-color together`. -/
theorem color_conflict_with_empty_expression :
    parseOptions ⟨"", false, true, true, false, false⟩
        = Outcome.returned (options.zero, some (GoError.commandLineError "no expression specified"))
      ∧ ¬ ∃ o err, parseOptions ⟨"", false, true, true, false, false⟩
            = Outcome.returned (o, some err)
          ∧ err.Error = "cannot use -color and -no-color together" := by
  refine ⟨rfl, ?_⟩
  rintro ⟨o, err, h, hmsg⟩
  have h' : parseOptions ⟨"", false, true, true, false, false⟩
      = Outcome.returned
          (options.zero, some (GoError.commandLineError "no expression specified")) := rfl
  rw [h'] at h
  injection h with h
  injection h with _ h
  injection h with h
  subst h
  revert hmsg
  decide

/-- C10 (amended): with `color` and `noColor` both set, help not requested and a
non-empty expression, whatever the other flags, validation fails with the
`commandLineError` whose message is `cannot use -color and -no-color together`; with an
empty expression it fails with the message `no expression specified`. -/
theorem color_conflict_message (opts : options) (hHelp : opts.printHelp = false)
    (hColor : opts.color = true) (hNoColor : opts.noColor = true) :
    (opts.expression ≠ "" →
        parseOptions opts = Outcome.returned
            (options.zero, some (GoError.commandLineError "cannot use -color and -no-color together"))
          ∧ (GoError.commandLineError "cannot use -color and -no-color together").Error
              = "cannot use -color and -no-color together")
      ∧ (opts.expression = "" →
        parseOptions opts = Outcome.returned
            (options.zero, some (GoError.commandLineError "no expression specified"))) := by
  rcases opts with ⟨expression, contentsOnly, color, noColor, noChildren, printHelp⟩
  simp only at hHelp hColor hNoColor
  subst hHelp hColor hNoColor
  constructor
  · intro he
    simp only [ne_eq] at he
    simp [parseOptions, he, GoError.Error]
  · intro he
    simp only at he
    subst he
    simp [parseOptions]

/-- C10 (amended), at the flags `-expr //a -color -no-color -contents-only`. -/
theorem color_conflict_message_witness :
    (⟨"//a", true, true, true, false, false⟩ : options).printHelp = false
      ∧ (⟨"//a", true, true, true, false, false⟩ : options).color = true
      ∧ (⟨"//a", true, true, true, false, false⟩ : options).noColor = true
      ∧ (⟨"//a", true, true, true, false, false⟩ : options).expression ≠ ""
      ∧ parseOptions ⟨"//a", true, true, true, false, false⟩
          = Outcome.returned
              (options.zero,
                some (GoError.commandLineError "cannot use -color and -no-color together")) :=
  ⟨rfl, rfl, rfl, by decide,
    ((color_conflict_message ⟨"//a", true, true, true, false, false⟩ rfl rfl rfl).1
      (by decide)).1⟩

/-! ## The driver and failing sinks -/

theorem outputXML_eq {σ : Type} (W : stringWriter σ) (node : Node) (self color recursive : Bool)
    (w : σ) :
    outputXML W node self color recursive w
      = runWrites W (outputXMLWrites node self color recursive) w := by
  cases self
  · simp only [outputXML, outputXMLWrites, Bool.false_eq_true, if_false, outputSiblings_eq]
  · simp only [outputXML, outputXMLWrites, if_true, andThen_pure, outputXMLToBuffer_eq]

theorem runLoop_eq {σ : Type} (W : stringWriter σ) (opts : options) (useColor : Bool)
    (nodes : List Node) (w : σ) :
    runLoop W opts useColor nodes w = runWrites W (runLoopWrites opts useColor nodes) w := by
  induction nodes generalizing w with
  | nil => rfl
  | cons node rest ih =>
    simp only [runLoop, runLoopWrites, runWrites_append, runWrites_cons, outputXML_eq, ih]

theorem outputXML_buffer (node : Node) (self color recursive : Bool) (buf : String) :
    outputXML bufferWriter node self color recursive buf
      = (buf ++ (outputXML bufferWriter node self color recursive "").1, none) := by
  simp only [outputXML_eq, runWrites_buffer, String.empty_append]

/-- C11: with help not requested and an empty expression, whatever the other flags,
validation fails with the `commandLineError` whose message is exactly
`no expression specified`. -/
theorem empty_expression_message (opts : options) (hHelp : opts.printHelp = false)
    (hExpr : opts.expression = "") :
    parseOptions opts
        = Outcome.returned
            (options.zero, some (GoError.commandLineError "no expression specified"))
      ∧ (GoError.commandLineError "no expression specified").Error
          = "no expression specified" := by
  rcases opts with ⟨expression, contentsOnly, color, noColor, noChildren, printHelp⟩
  simp only at hHelp hExpr
  subst hHelp hExpr
  exact ⟨rfl, rfl⟩

/-- C11, at the flags `-color -no-color -no-children` with no expression. -/
theorem empty_expression_message_witness :
    (⟨"", false, true, true, true, false⟩ : options).printHelp = false
      ∧ (⟨"", false, true, true, true, false⟩ : options).expression = ""
      ∧ parseOptions ⟨"", false, true, true, true, false⟩
          = Outcome.returned
              (options.zero, some (GoError.commandLineError "no expression specified")) :=
  ⟨rfl, rfl, (empty_expression_message ⟨"", false, true, true, true, false⟩ rfl rfl).1⟩

/-- C12: for validated options, a parsed document and a list of matched nodes, `run`
into the in-memory sink writes, in match order, the output of
`outputXML(node, !contentsOnly, useColor, !noChildren)` followed by one newline for each
node, the last included, and returns no error; for an empty match list nothing is
written. -/
theorem run_writes_each_node_and_newline (flags opts : options) (doc : Node)
    (nodes : List Node) (isTerminal : Bool)
    (QueryAll : Node → String → Except GoError (List Node)) (buf : String)
    (hValid : parseOptions flags = Outcome.returned (opts, none))
    (hQuery : QueryAll doc opts.expression = Except.ok nodes) :
    run bufferWriter flags (Except.ok doc) isTerminal QueryAll buf
        = Outcome.returned
            (buf ++ concat (nodes.map fun node =>
              (outputXML bufferWriter node (!opts.contentsOnly) (useColor isTerminal opts)
                (!opts.noChildren) "").1 ++ "\n"), none)
      ∧ (nodes = [] →
          run bufferWriter flags (Except.ok doc) isTerminal QueryAll buf
            = Outcome.returned (buf, none)) := by
  have hloop : ∀ (l : List Node) (b : String),
      runLoop bufferWriter opts (useColor isTerminal opts) l b
        = (b ++ concat (l.map fun node =>
            (outputXML bufferWriter node (!opts.contentsOnly) (useColor isTerminal opts)
              (!opts.noChildren) "").1 ++ "\n"), none) := by
    intro l
    induction l with
    | nil =>
      intro b
      simp [runLoop, concat]
    | cons node rest ih =>
      intro b
      have hw : ∀ b' : String, writeString bufferWriter "write XML" "\n" b' = (b' ++ "\n", none) :=
        fun _ => rfl
      rw [runLoop, outputXML_buffer, andThen_ok, hw, andThen_ok, ih]
      simp only [List.map, concat, String.append_assoc]
  have hrun : run bufferWriter flags (Except.ok doc) isTerminal QueryAll buf
      = Outcome.returned (runLoop bufferWriter opts (useColor isTerminal opts) nodes buf) := by
    simp only [run, hValid, hQuery]
  constructor
  · rw [hrun, hloop]
  · intro hn
    subst hn
    rw [hrun]
    rfl

/-- C12, at the flags `-expr //a -no-color` on a terminal, with the two matches `<a/>`
and `<a><b/></a>`: the output is `<a></a>`, newline, `<a><b></b></a>`, newline. -/
theorem run_writes_each_node_and_newline_witness :
    run bufferWriter ⟨"//a", false, false, true, false, false⟩
        (Except.ok (Node.mk NodeType.DocumentNode "" "" [] [])) true
        (fun _ _ => Except.ok
          [Node.mk NodeType.ElementNode "a" "" [] [],
            Node.mk NodeType.ElementNode "a" "" [] [Node.mk NodeType.ElementNode "b" "" [] []]])
        ""
      = Outcome.returned ("<a></a>\n<a><b></b></a>\n", none) :=
  ((run_writes_each_node_and_newline ⟨"//a", false, false, true, false, false⟩
      ⟨"//a", false, false, true, false, false⟩
      (Node.mk NodeType.DocumentNode "" "" [] [])
      [Node.mk NodeType.ElementNode "a" "" [] [],
        Node.mk NodeType.ElementNode "a" "" [] [Node.mk NodeType.ElementNode "b" "" [] []]]
      true (fun _ _ => Except.ok
          [Node.mk NodeType.ElementNode "a" "" [] [],
            Node.mk NodeType.ElementNode "a" "" [] [Node.mk NodeType.ElementNode "b" "" [] []]])
      "" rfl rfl).1).trans (by decide)

/-- C19: a node whose kind is not Text, Comment or Declaration is rendered as an
element, whatever its kind; with empty data, no prefix and no attribute (the document
root) the uncoloured output with recursion on is `<>`, the renderings of the children,
then `</>`. -/
theorem non_text_kinds_render_as_element (node : Node) (recursive : Bool) (buf : String)
    (hText : node.Typ ≠ NodeType.TextNode) (hComment : node.Typ ≠ NodeType.CommentNode)
    (hDecl : node.Typ ≠ NodeType.DeclarationNode) :
    outputXMLToBuffer bufferWriter node false recursive buf
        = (buf ++ ("<" ++ fullNodeName node.Data node.Prefix ++
            concat (node.Attr.map attrText) ++ ">" ++
            (if recursive then concat (node.children.map fun c => render c false true)
              else "") ++
            "</" ++ fullNodeName node.Data node.Prefix ++ ">"), none)
      ∧ (node.Data = "" → node.Prefix = "" → node.Attr = [] →
          outputXMLToBuffer bufferWriter node false true buf
            = (buf ++ ("<>" ++ concat (node.children.map fun c => render c false true) ++
                "</>"), none)) := by
  cases node with
  | mk Typ Data Prefix Attr children =>
    simp only [Node.Typ, Node.Attr, Node.Data, Node.Prefix, Node.children] at hText hComment hDecl ⊢
    rw [outputXMLToBuffer_buffer, outputXMLToBuffer_buffer, render_tag _ _ _ _ _ _ hText hComment,
      render_tag _ _ _ _ _ _ hText hComment]
    constructor
    · simp [hDecl, String.append_assoc]
    · intro hd hp ha
      subst hd hp ha
      have h₁ : fullNodeName "" "" = "" := by decide
      have h₂ : ∀ s : String, "<" ++ (">" ++ s) = "<>" ++ s := by
        intro s
        rw [← String.append_assoc]
        rfl
      have h₃ : ("</" ++ ">" : String) = "</>" := by decide
      simp [hDecl, h₁, h₂, h₃, concat, String.append_assoc]

/-- C19, at a document node with a declaration and a root element as children: the
output is `<><?xml?><root></root></>`. -/
theorem non_text_kinds_render_as_element_witness :
    (Node.mk NodeType.DocumentNode "" "" []
        [Node.mk NodeType.DeclarationNode "xml" "" [] [],
          Node.mk NodeType.ElementNode "root" "" [] []]).Typ ≠ NodeType.TextNode
      ∧ outputXMLToBuffer bufferWriter
          (Node.mk NodeType.DocumentNode "" "" []
            [Node.mk NodeType.DeclarationNode "xml" "" [] [],
              Node.mk NodeType.ElementNode "root" "" [] []]) false true ""
        = ("<><?xml?><root></root></>", none) :=
  ⟨by decide,
    ((non_text_kinds_render_as_element
      (Node.mk NodeType.DocumentNode "" "" []
        [Node.mk NodeType.DeclarationNode "xml" "" [] [],
          Node.mk NodeType.ElementNode "root" "" [] []]) true ""
      (by decide) (by decide) (by decide)).2 rfl rfl rfl).trans (by decide)⟩

/-! ## Deleting the writes of colour codes -/

theorem filter_colorWrites (color : Bool) (code : String) :
    (colorWrites color code).filter (fun op => op.1 ≠ "write color code") = [] := by
  cases color <;> simp [colorWrites]

theorem colorWrites_false (code : String) : colorWrites false code = [] := rfl

theorem filter_xml (s : String) :
    [("write XML", s)].filter (fun op => op.1 ≠ "write color code") = [("write XML", s)] := by
  simp

theorem filter_attrsWrites (attrs : List Attr) :
    (attrsWrites true attrs).filter (fun op => op.1 ≠ "write color code")
      = attrsWrites false attrs := by
  induction attrs with
  | nil => rfl
  | cons attr rest ih =>
    simp only [attrsWrites, List.filter_append, ih]
    congr 1

mutual

theorem filter_nodeWrites :
    ∀ (node : Node) (recursive : Bool),
      (nodeWrites node true recursive).filter (fun op => op.1 ≠ "write color code")
        = nodeWrites node false recursive
  | .mk Typ Data Prefix Attr children, recursive => by
    have ih := filter_siblingsWrites children recursive
    unfold nodeWrites
    by_cases hleaf : Typ = NodeType.TextNode ∨ Typ = NodeType.CommentNode
    · simp only [hleaf, if_true]
      rw [List.filter_eq_self]
      intro op hop
      simp only [List.mem_map] at hop
      obtain ⟨s, _, hs⟩ := hop
      rw [← hs]
      simp
    · rw [if_neg hleaf, if_neg hleaf]
      by_cases hd : Typ = NodeType.DeclarationNode
      · have hnd : ¬ (Typ ≠ NodeType.DeclarationNode) := fun h => h hd
        cases recursive <;>
          simp only [if_pos hd, if_neg hnd, if_true, if_false, List.filter_append,
            filter_colorWrites, colorWrites_false, filter_attrsWrites, filter_xml, ih,
            List.nil_append, List.append_nil, List.filter_nil, Bool.false_eq_true]
      · have hnd : Typ ≠ NodeType.DeclarationNode := hd
        cases recursive <;>
          simp only [if_neg hd, if_pos hnd, if_true, if_false, List.filter_append,
            filter_colorWrites, colorWrites_false, filter_attrsWrites, filter_xml, ih,
            List.nil_append, List.append_nil, List.filter_nil, Bool.false_eq_true]

theorem filter_siblingsWrites :
    ∀ (nodes : List Node) (recursive : Bool),
      (siblingsWrites nodes true recursive).filter (fun op => op.1 ≠ "write color code")
        = siblingsWrites nodes false recursive
  | [], _ => by
    unfold siblingsWrites
    rfl
  | n :: rest, recursive => by
    have ih₁ := filter_nodeWrites n recursive
    have ih₂ := filter_siblingsWrites rest recursive
    unfold siblingsWrites
    rw [List.filter_append, ih₁, ih₂]

end

/-! ## Errors of the sink -/

theorem runWrites_error_split {σ : Type} (W : stringWriter σ) (l : List (String × String))
    (w w' : σ) (err : GoError) (h : runWrites W l w = (w', some err)) :
    ∃ (pre : List (String × String)) (op : String × String) (post : List (String × String))
      (w₀ : σ) (e : GoError),
      l = pre ++ op :: post ∧ runWrites W pre w = (w₀, none)
        ∧ W.WriteString w₀ op.2 = (w', some e) ∧ err = GoError.Errorf op.1 e := by
  induction l generalizing w with
  | nil => simp [runWrites] at h
  | cons op rest ih =>
    rw [runWrites_cons, writeString] at h
    rcases hw : W.WriteString w op.2 with ⟨w₁, _ | e⟩
    · rw [hw] at h
      obtain ⟨pre, op', post, w₀, e, hl, hpre, hfail, herr⟩ := ih w₁ h
      refine ⟨op :: pre, op', post, w₀, e, by rw [hl]; rfl, ?_, hfail, herr⟩
      have hws : writeString W op.1 op.2 w = (w₁, none) := by
        simp only [writeString, hw]
      rw [runWrites_cons, hws, andThen_ok, hpre]
    · rw [hw] at h
      simp only [andThen, Prod.mk.injEq, Option.some.injEq] at h
      refine ⟨[], op, rest, w, e, rfl, rfl, ?_, h.2.symm⟩
      rw [hw, h.1]

/-- The contexts of the writes of a render with colour flag `color`: a write is made
with the context `write XML`, or, with colour on only, a colour code with the context
`write color code`. -/
theorem contextOK_colorWrites (color : Bool) (code : String) (hcode : code ∈ colorCodes) :
    ∀ op ∈ colorWrites color code,
      op.1 = "write XML"
        ∨ (color = true ∧ op.1 = "write color code" ∧ op.2 ∈ colorCodes) := by
  intro op hop
  cases color <;> simp [colorWrites] at hop
  subst hop
  exact Or.inr ⟨rfl, rfl, hcode⟩

theorem contextOK_attrsWrites (color : Bool) (attrs : List Attr) :
    ∀ op ∈ attrsWrites color attrs,
      op.1 = "write XML"
        ∨ (color = true ∧ op.1 = "write color code" ∧ op.2 ∈ colorCodes) := by
  induction attrs with
  | nil =>
    intro op hop
    simp [attrsWrites] at hop
  | cons attr rest ih =>
    intro op hop
    simp only [attrsWrites, attrWrites, List.mem_append, List.mem_singleton] at hop
    rcases hop with ((((((h | h) | h) | h) | h) | h) | h)
    · exact contextOK_colorWrites _ _ (by decide) op h
    · exact Or.inl (by rw [h])
    · exact contextOK_colorWrites _ _ (by decide) op h
    · exact Or.inl (by rw [h])
    · exact contextOK_colorWrites _ _ (by decide) op h
    · exact Or.inl (by rw [h])
    · exact ih op h

mutual

theorem contextOK_nodeWrites :
    ∀ (node : Node) (color recursive : Bool), ∀ op ∈ nodeWrites node color recursive,
      op.1 = "write XML"
        ∨ (color = true ∧ op.1 = "write color code" ∧ op.2 ∈ colorCodes)
  | .mk Typ Data Prefix Attr children, color, recursive => by
    have ih := contextOK_siblingsWrites children color recursive
    have hc := contextOK_colorWrites color
    have ha := contextOK_attrsWrites color Attr
    intro op hop
    unfold nodeWrites at hop
    by_cases hleaf : Typ = NodeType.TextNode ∨ Typ = NodeType.CommentNode
    · simp only [hleaf, if_true, List.mem_map] at hop
      obtain ⟨s, _, hs⟩ := hop
      exact Or.inl (by rw [← hs])
    · simp only [hleaf, if_false, List.mem_append, List.mem_singleton] at hop
      by_cases hd : Typ = NodeType.DeclarationNode
      · simp only [hd, if_true, List.mem_append, List.mem_singleton, ne_eq, not_true,
          if_false, List.not_mem_nil, or_false] at hop
        rcases hop with (h | h) | h | h | h | (h | h) | h | h
        · exact hc _ (by decide) op h
        · exact Or.inl (by rw [h])
        · exact hc _ (by decide) op h
        · exact ha op h
        · exact hc _ (by decide) op h
        · exact hc _ (by decide) op h
        · exact Or.inl (by rw [h])
        · exact hc _ (by decide) op h
        · cases recursive
          · simp at h
          · exact ih op (by simpa using h)
      · simp only [hd, if_false, List.mem_append, List.mem_singleton, ne_eq, not_false_eq_true,
          if_true] at hop
        rcases hop with (h | h) | h | h | h | (h | h) | h | h | h | h | h
        · exact hc _ (by decide) op h
        · exact Or.inl (by rw [h])
        · exact hc _ (by decide) op h
        · exact ha op h
        · exact hc _ (by decide) op h
        · exact hc _ (by decide) op h
        · exact Or.inl (by rw [h])
        · exact hc _ (by decide) op h
        · cases recursive
          · simp at h
          · exact ih op (by simpa using h)
        · exact hc _ (by decide) op h
        · exact Or.inl (by rw [h])
        · exact hc _ (by decide) op h

theorem contextOK_siblingsWrites :
    ∀ (nodes : List Node) (color recursive : Bool), ∀ op ∈ siblingsWrites nodes color recursive,
      op.1 = "write XML"
        ∨ (color = true ∧ op.1 = "write color code" ∧ op.2 ∈ colorCodes)
  | [], _, _ => by
    intro op hop
    simp [siblingsWrites] at hop
  | n :: rest, color, recursive => by
    have ih₁ := contextOK_nodeWrites n color recursive
    have ih₂ := contextOK_siblingsWrites rest color recursive
    intro op hop
    simp only [siblingsWrites, List.mem_append] at hop
    rcases hop with h | h
    · exact ih₁ op h
    · exact ih₂ op h

end

theorem contextOK_outputXMLWrites (node : Node) (self color recursive : Bool) :
    ∀ op ∈ outputXMLWrites node self color recursive,
      op.1 = "write XML"
        ∨ (color = true ∧ op.1 = "write color code" ∧ op.2 ∈ colorCodes) := by
  cases self
  · exact contextOK_siblingsWrites _ _ _
  · exact contextOK_nodeWrites _ _ _

/-- C14 (counterexample): with colour on, the first write of an element is a colour
code; when it fails, `outputXML` returns the sink's error wrapped with
`write color code`, whose message does not begin with `write XML: `. -/
theorem color_write_error_context :
    outputXML (failingWriter 1) (Node.mk NodeType.ElementNode "a" "" [] []) true true true
        ⟨[], 0⟩
      = (⟨[], 1⟩, some (GoError.Errorf "write color code" (GoError.sink "write failed")))
    ∧ (GoError.Errorf "write color code" (GoError.sink "write failed")).Error
        = "write color code: write failed"
    ∧ (GoError.Errorf "write color code" (GoError.sink "write failed")).Error
        ≠ "write XML: " ++ (GoError.sink "write failed").Error := by
  decide

/-- C14 (amended): for every node, flags and sink, when `outputXML` returns an error, the
writes of the render split into the writes `pre` that succeeded, the write `op` that
failed and the writes `post` never made, and the error is the sink's error for `op`
wrapped exactly once with the context of `op`: `write XML` when `op` is a write of XML
text, `write color code` when `op` is the write of a colour code, which happens only
with colour on.  With colour off the message is `write XML: ` followed by the sink's
message. -/
theorem write_error_wrapped_once {σ : Type} (W : stringWriter σ) (node : Node)
    (self color recursive : Bool) (w w' : σ) (err : GoError)
    (h : outputXML W node self color recursive w = (w', some err)) :
    ∃ (pre : List (String × String)) (op : String × String) (post : List (String × String))
      (w₀ : σ) (e : GoError),
      outputXMLWrites node self color recursive = pre ++ op :: post
        ∧ runWrites W pre w = (w₀, none)
        ∧ W.WriteString w₀ op.2 = (w', some e)
        ∧ err = GoError.Errorf op.1 e
        ∧ err.Error = op.1 ++ ": " ++ e.Error
        ∧ (op.1 = "write XML"
            ∨ (color = true ∧ op.1 = "write color code" ∧ op.2 ∈ colorCodes))
        ∧ (op.1 = "write XML" →
            op ∈ (outputXMLWrites node self true recursive).filter
              fun op' => op'.1 ≠ "write color code")
        ∧ (color = false → err.Error = "write XML: " ++ e.Error) := by
  rw [outputXML_eq] at h
  obtain ⟨pre, op, post, w₀, e, hl, hpre, hw, herr⟩ := runWrites_error_split W _ w w' err h
  have hmem : op ∈ outputXMLWrites node self color recursive := by
    rw [hl]
    exact List.mem_append_right _ (List.mem_cons_self _ _)
  have hctx := contextOK_outputXMLWrites node self color recursive op hmem
  refine ⟨pre, op, post, w₀, e, hl, hpre, hw, herr, ?_, hctx, ?_, ?_⟩
  · rw [herr]
    rfl
  · intro hx
    have hf : (outputXMLWrites node self true recursive).filter
        (fun op' => op'.1 ≠ "write color code") = outputXMLWrites node self false recursive := by
      cases self
      · exact filter_siblingsWrites _ _
      · exact filter_nodeWrites _ _
    cases color
    · rw [hf]
      exact hmem
    · rw [List.mem_filter]
      refine ⟨hmem, ?_⟩
      rw [hx]
      decide
  · intro hc
    rcases hctx with hx | ⟨hc', _⟩
    · rw [herr, hx]
      rfl
    · rw [hc] at hc'
      exact absurd hc' (by decide)

/-- C14 (amended), at the element `a` with a child `b`, colour on, when the ninth write
(the text `<b`, after the colour code that opens it) fails: the eight writes before it
succeeded and the error is the sink's error wrapped once with `write XML`. -/
theorem write_error_wrapped_once_witness :
    outputXML (failingWriter 9) (Node.mk NodeType.ElementNode "a" "" []
        [Node.mk NodeType.ElementNode "b" "" [] []]) true true true ⟨[], 0⟩
      = (⟨[chalk.Magenta, "<a", chalk.Reset, chalk.Reset, chalk.Magenta, ">", chalk.Reset,
          chalk.Magenta], 9⟩,
          some (GoError.Errorf "write XML" (GoError.sink "write failed")))
    ∧ ∃ (pre : List (String × String)) (op : String × String) (post : List (String × String))
        (w₀ : Tape) (e : GoError),
      outputXMLWrites (Node.mk NodeType.ElementNode "a" "" []
          [Node.mk NodeType.ElementNode "b" "" [] []]) true true true = pre ++ op :: post
        ∧ runWrites (failingWriter 9) pre ⟨[], 0⟩ = (w₀, none)
        ∧ (failingWriter 9).WriteString w₀ op.2
            = (⟨[chalk.Magenta, "<a", chalk.Reset, chalk.Reset, chalk.Magenta, ">", chalk.Reset,
          chalk.Magenta], 9⟩, some e)
        ∧ GoError.Errorf "write XML" (GoError.sink "write failed") = GoError.Errorf op.1 e
        ∧ (GoError.Errorf "write XML" (GoError.sink "write failed")).Error
            = op.1 ++ ": " ++ e.Error
        ∧ (op.1 = "write XML"
            ∨ (true = true ∧ op.1 = "write color code" ∧ op.2 ∈ colorCodes))
        ∧ (op.1 = "write XML" →
            op ∈ (outputXMLWrites (Node.mk NodeType.ElementNode "a" "" []
                [Node.mk NodeType.ElementNode "b" "" [] []]) true true true).filter
              fun op' => op'.1 ≠ "write color code")
        ∧ (true = false →
            (GoError.Errorf "write XML" (GoError.sink "write failed")).Error
              = "write XML: " ++ e.Error) :=
  ⟨by decide,
    write_error_wrapped_once (failingWriter 9)
      (Node.mk NodeType.ElementNode "a" "" [] [Node.mk NodeType.ElementNode "b" "" [] []])
      true true true ⟨[], 0⟩
      ⟨[chalk.Magenta, "<a", chalk.Reset, chalk.Reset, chalk.Magenta, ">", chalk.Reset,
          chalk.Magenta], 9⟩
      (GoError.Errorf "write XML" (GoError.sink "write failed")) (by decide)⟩

/-! ## A sink whose `k`-th write fails -/

theorem runWrites_failingWriter_ok (k : Nat) (l : List (String × String)) (t : Tape)
    (hk : k ≤ t.attempts ∨ t.attempts + l.length < k) :
    runWrites (failingWriter k) l t
      = (⟨t.written ++ l.map Prod.snd, t.attempts + l.length⟩, none) := by
  induction l generalizing t with
  | nil => simp [runWrites]
  | cons op rest ih =>
    have hne : ¬ (t.attempts + 1 = k) := by
      simp only [List.length_cons] at hk
      omega
    have hw : writeString (failingWriter k) op.1 op.2 t
        = (⟨t.written ++ [op.2], t.attempts + 1⟩, none) := by
      simp [writeString, failingWriter, hne]
    rw [runWrites_cons, hw, andThen_ok, ih]
    · simp only [List.map, List.length_cons, List.append_assoc, List.singleton_append,
        Prod.mk.injEq, Tape.mk.injEq, true_and, and_true]
      omega
    · simp only [List.length_cons] at hk ⊢
      omega

theorem runWrites_failingWriter_err (k : Nat) (l : List (String × String)) (t : Tape)
    (hlo : t.attempts < k) (hhi : k ≤ t.attempts + l.length) :
    ∃ err, runWrites (failingWriter k) l t
      = (⟨t.written ++ (l.take (k - 1 - t.attempts)).map Prod.snd, k⟩, some err) := by
  induction l generalizing t with
  | nil =>
    simp only [List.length_nil] at hhi
    omega
  | cons op rest ih =>
    by_cases hk : t.attempts + 1 = k
    · have hw : writeString (failingWriter k) op.1 op.2 t
          = (⟨t.written, k⟩, some (GoError.Errorf op.1 (GoError.sink "write failed"))) := by
        simp [writeString, failingWriter, hk]
      have h0 : k - 1 - t.attempts = 0 := by omega
      refine ⟨GoError.Errorf op.1 (GoError.sink "write failed"), ?_⟩
      rw [runWrites_cons, hw, andThen_err, h0]
      simp
    · have hw : writeString (failingWriter k) op.1 op.2 t
          = (⟨t.written ++ [op.2], t.attempts + 1⟩, none) := by
        simp [writeString, failingWriter, hk]
      simp only [List.length_cons] at hhi
      obtain ⟨err, herr⟩ := ih ⟨t.written ++ [op.2], t.attempts + 1⟩
        (by simp only; omega) (by simp only; omega)
      refine ⟨err, ?_⟩
      rw [runWrites_cons, hw, andThen_ok, herr]
      have hs : k - 1 - t.attempts = (k - 1 - (t.attempts + 1)) + 1 := by omega
      rw [hs]
      simp

theorem recorded_eq (node : Node) (self color recursive : Bool) :
    recorded node self color recursive
      = (outputXMLWrites node self color recursive).map Prod.snd := by
  simp [recorded, outputXML_eq, runWrites_failingWriter_ok]

theorem concat_take_append_drop (l : List String) (n : Nat) :
    concat l = concat (l.take n) ++ concat (l.drop n) := by
  rw [← concat_append, List.take_append_drop]

/-- C15: with a sink whose `k`-th write fails (and no other), `outputXML` returns an
error, the sink has seen exactly `k` writes (none after the failing one), and the writes
that succeeded are the first `k - 1` writes of the render into a sink that never fails,
so the text written is a prefix of the full output; when no write fails (no `k`-th write
exists, or `k = 0`) the render returns no error and makes all its writes. -/
theorem failing_write_aborts_render (node : Node) (self color recursive : Bool) (k : Nat) :
    (1 ≤ k → k ≤ (recorded node self color recursive).length →
        (∃ err, outputXML (failingWriter k) node self color recursive ⟨[], 0⟩
          = (⟨(recorded node self color recursive).take (k - 1), k⟩, some err))
        ∧ concat (recorded node self color recursive)
          = concat ((recorded node self color recursive).take (k - 1)) ++
              concat ((recorded node self color recursive).drop (k - 1)))
      ∧ (k = 0 ∨ (recorded node self color recursive).length < k →
        outputXML (failingWriter k) node self color recursive ⟨[], 0⟩
          = (⟨recorded node self color recursive,
              (recorded node self color recursive).length⟩, none))
      ∧ concat (recorded node self color recursive)
          = (outputXML bufferWriter node self color recursive "").1 := by
  refine ⟨?_, ?_, ?_⟩
  · intro h1 hk
    refine ⟨?_, concat_take_append_drop _ _⟩
    rw [recorded_eq, List.length_map] at hk
    obtain ⟨err, herr⟩ := runWrites_failingWriter_err k
      (outputXMLWrites node self color recursive) ⟨[], 0⟩ (by simp only; omega)
      (by simp only; omega)
    refine ⟨err, ?_⟩
    rw [outputXML_eq, herr, recorded_eq]
    simp [List.map_take]
  · intro hk
    rw [recorded_eq, List.length_map] at hk
    rw [outputXML_eq, runWrites_failingWriter_ok k _ _ (by simp only; omega), recorded_eq]
    simp
  · rw [recorded_eq, outputXML_eq, runWrites_buffer]
    generalize outputXMLWrites node self color recursive = l
    induction l with
    | nil => rfl
    | cons op rest ih => simp [concat, textOf, ih]

/-- C15, at the element `a` with a child `b`, colour off, when the third write fails: the
first two writes `<a` and `>` were made, the sink saw three writes, and an error is
returned. -/
theorem failing_write_aborts_render_witness :
    recorded (Node.mk NodeType.ElementNode "a" "" [] [Node.mk NodeType.ElementNode "b" "" [] []])
        true false true
      = ["<a", ">", "<b", ">", "</b>", "</a>"]
    ∧ ∃ err, outputXML (failingWriter 3)
        (Node.mk NodeType.ElementNode "a" "" [] [Node.mk NodeType.ElementNode "b" "" [] []])
        true false true ⟨[], 0⟩
      = (⟨(recorded (Node.mk NodeType.ElementNode "a" "" []
            [Node.mk NodeType.ElementNode "b" "" [] []]) true false true).take (3 - 1), 3⟩,
          some err) :=
  ⟨by decide,
    ((failing_write_aborts_render
      (Node.mk NodeType.ElementNode "a" "" [] [Node.mk NodeType.ElementNode "b" "" [] []])
      true false true 3).1 (by decide) (by decide)).1⟩

/-! ## Newlines in the output -/

theorem newlineFree_append (a b : String) :
    newlineFree (a ++ b) = (newlineFree a && newlineFree b) := by
  simp [newlineFree, List.all_append]

theorem newlineFree_esc (c : Char) (e : String) (h : xml.esc c = some e) :
    newlineFree e = true := by
  unfold xml.esc at h
  split_ifs at h <;> cases h <;> decide

theorem ne_newline_of_esc_none (c : Char) (h : xml.esc c = none) : c ≠ Char.ofNat 10 := by
  intro hc
  subst hc
  revert h
  decide

theorem newlineFree_escapeWrites (cs pending : List Char)
    (hp : newlineFree (String.mk pending) = true) :
    ∀ s ∈ escapeWrites cs pending, newlineFree s = true := by
  induction cs generalizing pending with
  | nil =>
    intro s hs
    simp only [escapeWrites, List.mem_singleton] at hs
    rw [hs]
    exact hp
  | cons c rest ih =>
    intro s hs
    unfold escapeWrites at hs
    cases hc : xml.esc c with
    | none =>
      rw [hc] at hs
      refine ih (pending ++ [c]) ?_ s hs
      have hne := ne_newline_of_esc_none c hc
      simp only [newlineFree, List.all_append, Bool.and_eq_true] at hp ⊢
      exact ⟨hp, by simpa using hne⟩
    | some e =>
      rw [hc] at hs
      simp only [List.mem_cons] at hs
      rcases hs with h | h | h
      · rw [h]
        exact hp
      · rw [h]
        exact newlineFree_esc c e hc
      · exact ih [] rfl s h

theorem newlineFree_colorWrites (color : Bool) (code : String)
    (h : newlineFree code = true) : ∀ op ∈ colorWrites color code, newlineFree op.2 = true := by
  intro op hop
  cases color <;> simp [colorWrites] at hop
  subst hop
  exact h

theorem newlineFree_textOf_eq (l : List (String × String)) :
    newlineFree (textOf l) = l.all fun op => newlineFree op.2 := by
  induction l with
  | nil => rfl
  | cons op rest ih => rw [textOf, newlineFree_append, ih, List.all_cons]

theorem all_colorWrites (color : Bool) (code : String) (h : newlineFree code = true) :
    ((colorWrites color code).all fun op => newlineFree op.2) = true := by
  rw [List.all_eq_true]
  exact newlineFree_colorWrites color code h

theorem all_escapeWrites (cs : List Char) :
    (((escapeWrites cs []).map fun s => ("write XML", s)).all fun op => newlineFree op.2)
      = true := by
  rw [List.all_eq_true]
  intro op hop
  simp only [List.mem_map] at hop
  obtain ⟨s, hs, hop⟩ := hop
  rw [← hop]
  exact newlineFree_escapeWrites cs [] rfl s hs

theorem newlineFree_attrName (attr : Attr) :
    newlineFree (" " ++ attrName attr ++ "=\"")
      = (newlineFree attr.Name.Space && newlineFree attr.Name.Local) := by
  have h₁ : newlineFree " " = true := by decide
  have h₂ : newlineFree "=\"" = true := by decide
  have h₃ : newlineFree ":" = true := by decide
  have h₄ : newlineFree "" = true := by decide
  unfold attrName
  by_cases h : attr.Name.Space = ""
  · simp [h, newlineFree_append, h₁, h₂, h₄]
  · simp [h, newlineFree_append, h₁, h₂, h₃]

theorem all_attrsWrites (color : Bool) (attrs : List Attr) :
    ((attrsWrites color attrs).all fun op => newlineFree op.2)
      = attrs.all attrNewlineFree := by
  induction attrs with
  | nil => rfl
  | cons attr rest ih =>
    have h₁ : newlineFree "\"" = true := by decide
    simp only [attrsWrites, attrWrites, List.all_append, List.all_cons, List.all_nil, ih,
      all_colorWrites color _ (by decide : newlineFree chalk.Yellow = true),
      all_colorWrites color _ (by decide : newlineFree (chalk.Reset ++ chalk.Cyan) = true),
      all_colorWrites color _ (by decide : newlineFree (chalk.Reset ++ chalk.Yellow) = true),
      newlineFree_attrName, h₁, attrNewlineFree, Bool.true_and, Bool.and_true]

theorem newlineFree_fullNodeName (Data Prefix : String) :
    newlineFree (fullNodeName Data Prefix) = (newlineFree Data && newlineFree Prefix) := by
  have h₃ : newlineFree ":" = true := by decide
  have h₄ : newlineFree "" = true := by decide
  unfold fullNodeName
  by_cases h : Prefix = ""
  · simp [h, h₄]
  · simp [h, newlineFree_append, h₃, Bool.and_comm]

mutual

theorem all_nodeWrites :
    ∀ (node : Node) (color recursive : Bool),
      ((nodeWrites node color recursive).all fun op => newlineFree op.2)
        = rawNewlineFree node recursive
  | .mk Typ Data Prefix Attr children, color, recursive => by
    have ih := all_siblingsWrites children color recursive
    have hc : ∀ code, newlineFree code = true →
        ((colorWrites color code).all fun op => newlineFree op.2) = true :=
      all_colorWrites color
    have hG := hc chalk.Green (by decide)
    have hM := hc chalk.Magenta (by decide)
    have hR := hc chalk.Reset (by decide)
    have hRC := hc chalk.ResetColor (by decide)
    have h₁ : newlineFree "<?" = true := by decide
    have h₂ : newlineFree "<" = true := by decide
    have h₃ : newlineFree "?>" = true := by decide
    have h₄ : newlineFree ">" = true := by decide
    have h₅ : newlineFree "</" = true := by decide
    unfold nodeWrites rawNewlineFree
    by_cases hleaf : Typ = NodeType.TextNode ∨ Typ = NodeType.CommentNode
    · rw [if_pos hleaf, if_pos hleaf]
      exact all_escapeWrites _
    · rw [if_neg hleaf, if_neg hleaf]
      by_cases hd : Typ = NodeType.DeclarationNode
      · have hnd : ¬ (Typ ≠ NodeType.DeclarationNode) := fun h => h hd
        cases recursive <;>
          simp only [if_pos hd, if_neg hnd, if_true, if_false, Bool.false_eq_true,
            List.all_append, List.all_cons, List.all_nil, hG, hR, h₁, h₃, ih,
            all_attrsWrites, newlineFree_append, Bool.true_and, Bool.and_true]
      · have hnd : Typ ≠ NodeType.DeclarationNode := hd
        cases recursive <;>
          simp only [if_neg hd, if_pos hnd, if_true, if_false, Bool.false_eq_true,
            List.all_append, List.all_cons, List.all_nil, hM, hR, hRC, h₂, h₄, h₅, ih,
            all_attrsWrites, newlineFree_append, newlineFree_fullNodeName, Bool.true_and,
            Bool.and_true] <;>
          cases newlineFree Data <;> cases newlineFree Prefix <;>
          cases List.all Attr attrNewlineFree <;> simp

theorem all_siblingsWrites :
    ∀ (nodes : List Node) (color recursive : Bool),
      ((siblingsWrites nodes color recursive).all fun op => newlineFree op.2)
        = rawNewlineFreeList nodes recursive
  | [], _, _ => by
    unfold siblingsWrites rawNewlineFreeList
    rfl
  | n :: rest, color, recursive => by
    have ih₁ := all_nodeWrites n color recursive
    have ih₂ := all_siblingsWrites rest color recursive
    unfold siblingsWrites rawNewlineFreeList
    rw [List.all_append, ih₁, ih₂]

end

/-- C13 (counterexample): the element `a` with an attribute whose value has a newline
(as in `<a x="1&#10;2"/>`) is written with that newline, so the serializer's output for
it is not one line. -/
theorem attribute_newline_reaches_output :
    (outputXML bufferWriter
        (Node.mk NodeType.ElementNode "a" "" [⟨⟨"", "x"⟩, "1\n2"⟩] []) true false true "").1
      = "<a x=\"1\n2\"></a>"
    ∧ newlineFree (outputXML bufferWriter
        (Node.mk NodeType.ElementNode "a" "" [⟨⟨"", "x"⟩, "1\n2"⟩] []) true false true "").1
      = false := by
  decide

/-- C13 (amended): for every node and all flags, the serializer's output has no newline
exactly when none of the strings written as they are in that render has one (the data,
prefixes and attributes of the nodes rendered, text and comment nodes apart, whose
newlines are escaped); the driver writes that output followed by one newline; and the
output of a Text or Comment node rendered itself never has a newline. -/
theorem output_is_one_line (node : Node) (opts : options) (self color recursive : Bool) :
    newlineFree (outputXML bufferWriter node self color recursive "").1
        = (if self then rawNewlineFree node recursive
            else rawNewlineFreeList node.children recursive)
      ∧ runLoop bufferWriter opts color [node] ""
          = ((outputXML bufferWriter node (!opts.contentsOnly) color (!opts.noChildren) "").1
              ++ "\n", none)
      ∧ (node.Typ = NodeType.TextNode ∨ node.Typ = NodeType.CommentNode →
          newlineFree (outputXML bufferWriter node true color recursive "").1 = true) := by
  have hall : ∀ self' : Bool,
      newlineFree (outputXML bufferWriter node self' color recursive "").1
        = (if self' then rawNewlineFree node recursive
            else rawNewlineFreeList node.children recursive) := by
    intro self'
    rw [outputXML_eq, runWrites_buffer, String.empty_append, newlineFree_textOf_eq]
    cases self'
    · exact all_siblingsWrites _ _ _
    · exact all_nodeWrites _ _ _
  refine ⟨hall self, ?_, ?_⟩
  · rw [runLoop_eq, outputXML_eq, runWrites_buffer, runWrites_buffer]
    simp [runLoopWrites, textOf_append, textOf]
  · intro htext
    rw [hall true]
    cases node with
    | mk Typ Data Prefix Attr children =>
      simp only [Node.Typ] at htext
      unfold rawNewlineFree
      simp only [htext, if_true]

/-- C13 (amended), at the element `a` whose only newlines are in a text child and in an
attribute value of a child element: with children rendered the output has a newline,
without them (`-no-children`) the output `<a x="1"></a>` is one line. -/
theorem output_is_one_line_witness :
    (outputXML bufferWriter (Node.mk NodeType.ElementNode "a" "" [⟨⟨"", "x"⟩, "1"⟩]
        [Node.mk NodeType.TextNode "b\nc" "" [] [],
          Node.mk NodeType.ElementNode "d" "" [⟨⟨"", "y"⟩, "2\n3"⟩] []]) true false false "").1
        = "<a x=\"1\"></a>"
      ∧ newlineFree (outputXML bufferWriter (Node.mk NodeType.ElementNode "a" "" [⟨⟨"", "x"⟩, "1"⟩]
        [Node.mk NodeType.TextNode "b\nc" "" [] [],
          Node.mk NodeType.ElementNode "d" "" [⟨⟨"", "y"⟩, "2\n3"⟩] []]) true false false "").1
        = true
      ∧ newlineFree (outputXML bufferWriter (Node.mk NodeType.ElementNode "a" "" [⟨⟨"", "x"⟩, "1"⟩]
        [Node.mk NodeType.TextNode "b\nc" "" [] [],
          Node.mk NodeType.ElementNode "d" "" [⟨⟨"", "y"⟩, "2\n3"⟩] []]) true false true "").1
        = false
      ∧ newlineFree (outputXML bufferWriter (Node.mk NodeType.TextNode "b\nc" "" [] [])
          true true true "").1 = true :=
  ⟨by decide,
    ((output_is_one_line (Node.mk NodeType.ElementNode "a" "" [⟨⟨"", "x"⟩, "1"⟩]
      [Node.mk NodeType.TextNode "b\nc" "" [] [],
        Node.mk NodeType.ElementNode "d" "" [⟨⟨"", "y"⟩, "2\n3"⟩] []])
      options.zero true false false).1).trans (by decide),
    ((output_is_one_line (Node.mk NodeType.ElementNode "a" "" [⟨⟨"", "x"⟩, "1"⟩]
      [Node.mk NodeType.TextNode "b\nc" "" [] [],
        Node.mk NodeType.ElementNode "d" "" [⟨⟨"", "y"⟩, "2\n3"⟩] []])
      options.zero true false true).1).trans (by decide),
    (output_is_one_line (Node.mk NodeType.TextNode "b\nc" "" [] []) options.zero true true
      true).2.2 (Or.inl rfl)⟩

/-! ## The serializer with colour -/

/-- C16 (counterexample): for the element `e` with the attribute `id="1"`, colour on, the
write before the closing `"` is a reset followed at once by yellow, so the `"` is
written while yellow is in force, not with no colour. -/
theorem closing_quote_written_in_yellow :
    recorded (Node.mk NodeType.ElementNode "e" "" [⟨⟨"", "id"⟩, "1"⟩] []) true true true
      = [chalk.Magenta, "<e", chalk.Reset,
          chalk.Yellow, " id=\"", chalk.Reset ++ chalk.Cyan, "1",
          chalk.Reset ++ chalk.Yellow, "\"",
          chalk.Reset, chalk.Magenta, ">", chalk.Reset, chalk.Magenta, "</e>", chalk.ResetColor]
    ∧ colored none (attrWrites true ⟨⟨"", "id"⟩, "1"⟩)
      = [(some chalk.Yellow, " id=\""), (some chalk.Cyan, "1"), (some chalk.Yellow, "\"")]
    ∧ colored none (attrWrites true ⟨⟨"", "id"⟩, "1"⟩)
      ≠ [(some chalk.Yellow, " id=\""), (some chalk.Cyan, "1"), (none, "\"")] := by
  decide

/-- C16 (amended): with colour on, the writes for one attribute are, for every sink:
yellow; the space, the name and `="`; a reset followed by cyan; the value; a reset
followed by yellow; the closing `"`.  So the name is written in yellow, the value in
cyan and the closing `"` in yellow, each attribute starts by writing yellow again, and
in the node's writes one reset follows the attribute loop. -/
theorem attribute_color_sequence (attr : Attr) (active : Option String) :
    (∀ (σ : Type) (W : stringWriter σ) (w : σ),
        outputAttr W true attr w
          = runWrites W
              [("write color code", chalk.Yellow),
                ("write XML", " " ++ attrName attr ++ "=\""),
                ("write color code", chalk.Reset ++ chalk.Cyan),
                ("write XML", attr.Value),
                ("write color code", chalk.Reset ++ chalk.Yellow),
                ("write XML", "\"")] w)
      ∧ colored active (attrWrites true attr)
          = [(some chalk.Yellow, " " ++ attrName attr ++ "=\""),
              (some chalk.Cyan, attr.Value), (some chalk.Yellow, "\"")]
      ∧ (∀ (Typ : NodeType) (Data Prefix : String) (attrs : List Attr) (children : List Node)
          (recursive : Bool), Typ = NodeType.ElementNode ∨ Typ = NodeType.DeclarationNode →
          ∃ post, nodeWrites (Node.mk Typ Data Prefix attrs children) true recursive
            = [("write color code",
                  if Typ = NodeType.DeclarationNode then chalk.Green else chalk.Magenta),
                ("write XML",
                  if Typ = NodeType.DeclarationNode then "<?" ++ Data
                  else "<" ++ fullNodeName Data Prefix),
                ("write color code", chalk.Reset)] ++
              attrsWrites true attrs ++ [("write color code", chalk.Reset)] ++ post) := by
  refine ⟨?_, ?_, ?_⟩
  · intro σ W w
    rw [outputAttr_eq]
    rfl
  · have h₁ : colorAfter (chalk.Reset ++ chalk.Cyan) = some chalk.Cyan := by decide
    have h₂ : colorAfter (chalk.Reset ++ chalk.Yellow) = some chalk.Yellow := by decide
    have h₃ : colorAfter chalk.Yellow = some chalk.Yellow := by decide
    have hx : ¬ ("write XML" = "write color code") := by decide
    simp only [attrWrites, colorWrites, if_true, List.cons_append, List.nil_append, colored,
      h₁, h₂, h₃, hx, if_false]
  · intro Typ Data Prefix attrs children recursive hTyp
    unfold nodeWrites
    rcases hTyp with h | h <;> subst h <;>
      simp [colorWrites]

/-- C16 (amended), at the attribute `ns:id="1"` and the sink that never fails: the
recorded writes of the attribute loop body. -/
theorem attribute_color_sequence_witness :
    (outputAttr (failingWriter 0) true ⟨⟨"ns", "id"⟩, "1"⟩ ⟨[], 0⟩).1.written
      = [chalk.Yellow, " ns:id=\"", chalk.Reset ++ chalk.Cyan, "1",
          chalk.Reset ++ chalk.Yellow, "\""] :=
  (congrArg (fun r => r.1.written)
    ((attribute_color_sequence ⟨⟨"ns", "id"⟩, "1"⟩ none).1 Tape (failingWriter 0) ⟨[], 0⟩)).trans
    (by decide)

/-- C17: with colour on, a node with no attribute and no child writes, when it is an
Element: magenta, `<` + fullName, reset, reset, magenta, `>`, reset, magenta,
`</` + fullName + `>`, and `chalk.ResetColor`, a code different from `chalk.Reset`; when
it is a Declaration: green, `<?` + data, reset, reset, green, `?>`, reset, and no closing
tag.  In both, every colour code is followed by a reset before the next colour code and
before the end. -/
theorem childless_node_color_sequence (node : Node) (recursive : Bool)
    (hAttr : node.Attr = []) (hChildren : node.children = []) :
    (node.Typ = NodeType.ElementNode →
        recorded node true true recursive
            = [chalk.Magenta, "<" ++ fullNodeName node.Data node.Prefix, chalk.Reset,
                chalk.Reset, chalk.Magenta, ">", chalk.Reset,
                chalk.Magenta, "</" ++ fullNodeName node.Data node.Prefix ++ ">",
                chalk.ResetColor]
          ∧ colorsClosed false (outputXMLWrites node true true recursive) = true)
      ∧ (node.Typ = NodeType.DeclarationNode →
        recorded node true true recursive
            = [chalk.Green, "<?" ++ node.Data, chalk.Reset,
                chalk.Reset, chalk.Green, "?>", chalk.Reset]
          ∧ colorsClosed false (outputXMLWrites node true true recursive) = true)
      ∧ chalk.ResetColor ≠ chalk.Reset
      ∧ ∀ (σ : Type) (W : stringWriter σ) (w : σ),
          outputXML W node true true recursive w
            = runWrites W (outputXMLWrites node true true recursive) w := by
  cases node with
  | mk Typ Data Prefix Attr children =>
    simp only [Node.Typ, Node.Attr, Node.Data, Node.Prefix, Node.children] at hAttr hChildren ⊢
    subst hAttr hChildren
    have hx : ¬ ("write XML" = "write color code") := by decide
    have hr : ∀ r : Bool, siblingsWrites [] true r = [] := fun r => by
      unfold siblingsWrites
      rfl
    refine ⟨?_, ?_, by decide, fun σ W w => outputXML_eq W _ _ _ _ w⟩
    · intro hT
      subst hT
      have hw : outputXMLWrites (Node.mk NodeType.ElementNode Data Prefix [] []) true true
          recursive
          = [("write color code", chalk.Magenta), ("write XML", "<" ++ fullNodeName Data Prefix),
              ("write color code", chalk.Reset), ("write color code", chalk.Reset),
              ("write color code", chalk.Magenta), ("write XML", ">"),
              ("write color code", chalk.Reset), ("write color code", chalk.Magenta),
              ("write XML", "</" ++ fullNodeName Data Prefix ++ ">"),
              ("write color code", chalk.ResetColor)] := by
        unfold outputXMLWrites nodeWrites
        cases recursive <;> simp [colorWrites, attrsWrites, hr]
      rw [recorded_eq, hw]
      refine ⟨rfl, ?_⟩
      have h₁ : ¬ (chalk.Magenta = chalk.Reset ∨ chalk.Magenta = chalk.ResetColor) := by decide
      simp [colorsClosed, hx, h₁]
    · intro hT
      subst hT
      have hw : outputXMLWrites (Node.mk NodeType.DeclarationNode Data Prefix [] []) true true
          recursive
          = [("write color code", chalk.Green), ("write XML", "<?" ++ Data),
              ("write color code", chalk.Reset), ("write color code", chalk.Reset),
              ("write color code", chalk.Green), ("write XML", "?>"),
              ("write color code", chalk.Reset)] := by
        unfold outputXMLWrites nodeWrites
        cases recursive <;> simp [colorWrites, attrsWrites, hr]
      rw [recorded_eq, hw]
      refine ⟨rfl, ?_⟩
      have h₁ : ¬ (chalk.Green = chalk.Reset ∨ chalk.Green = chalk.ResetColor) := by decide
      simp [colorsClosed, hx, h₁]

/-- C17, at the element `ns:foo` with no attribute and no child, colour on: the ten
writes recorded by a sink that never fails. -/
theorem childless_node_color_sequence_witness :
    (Node.mk NodeType.ElementNode "foo" "ns" [] []).Attr = []
      ∧ (Node.mk NodeType.ElementNode "foo" "ns" [] []).children = []
      ∧ recorded (Node.mk NodeType.ElementNode "foo" "ns" [] []) true true true
        = ["\x1b[35m", "<ns:foo", "\x1b[49m\x1b[39m", "\x1b[49m\x1b[39m", "\x1b[35m", ">",
            "\x1b[49m\x1b[39m", "\x1b[35m", "</ns:foo>", "\x1b[39m"] :=
  ⟨rfl, rfl,
    (((childless_node_color_sequence (Node.mk NodeType.ElementNode "foo" "ns" [] []) true
      rfl rfl).1 rfl).1).trans (by decide)⟩

/-! ## Colour only adds colour codes -/

/-- C18: for every node and both values of `self` and `recursive`, the writes of
`outputXML` with colour off are, for every sink, the writes with colour on without the
writes of colour codes, in the same order; so the text written with colour on, once the
colour-code writes are deleted, is exactly the output with colour off. -/
theorem color_only_adds_color_codes (node : Node) (self recursive : Bool) :
    (∀ (σ : Type) (W : stringWriter σ) (w : σ),
        outputXML W node self true recursive w
            = runWrites W (outputXMLWrites node self true recursive) w
          ∧ outputXML W node self false recursive w
            = runWrites W
                ((outputXMLWrites node self true recursive).filter
                  fun op => op.1 ≠ "write color code") w)
      ∧ textOf ((outputXMLWrites node self true recursive).filter
            fun op => op.1 ≠ "write color code")
          = (outputXML bufferWriter node self false recursive "").1
      ∧ ((outputXMLWrites node self true recursive).filter
            fun op => op.1 ≠ "write color code").map Prod.snd
          = recorded node self false recursive := by
  have hf : (outputXMLWrites node self true recursive).filter
      (fun op => op.1 ≠ "write color code") = outputXMLWrites node self false recursive := by
    cases self
    · exact filter_siblingsWrites _ _
    · exact filter_nodeWrites _ _
  refine ⟨fun σ W w => ⟨outputXML_eq W _ _ _ _ w, ?_⟩, ?_, ?_⟩
  · rw [hf, outputXML_eq]
  · rw [hf, outputXML_eq, runWrites_buffer, String.empty_append]
  · rw [hf, recorded_eq]

end XmlQuery
